import Mathlib
set_option autoImplicit false

/-!
Shallow embedding of `yt_dlp/extractor/blackboardcollaborate.py` (the five
Blackboard Collaborate resolvers) together with the generic helpers they use.
JSON values fetched over the network are modelled by the inductive `JVal`;
the host transport is an oracle mapping a request to an optional response
(`none` models a failed download).  Python runtime failures that abort an
extraction (TypeError, KeyError, AttributeError, ExtractorError, ...) are
modelled by `Except PyErr`.
-/

/-- JSON values as delivered by `_download_json`.  `null` corresponds to
Python `None` (the JSON decoder maps `null` to `None`). -/
inductive JVal where
  | null : JVal
  | b : Bool → JVal
  | n : Int → JVal
  | s : String → JVal
  | arr : List JVal → JVal
  | obj : List (String × JVal) → JVal

mutual

/-- Decidable equality on JSON values (the nested inductive defeats the
automatic derivation). -/
def jdecEq : (a b : JVal) → Decidable (a = b)
  | .null, .null => isTrue rfl
  | .null, .b _ => isFalse (fun h => JVal.noConfusion h)
  | .null, .n _ => isFalse (fun h => JVal.noConfusion h)
  | .null, .s _ => isFalse (fun h => JVal.noConfusion h)
  | .null, .arr _ => isFalse (fun h => JVal.noConfusion h)
  | .null, .obj _ => isFalse (fun h => JVal.noConfusion h)
  | .b _, .null => isFalse (fun h => JVal.noConfusion h)
  | .b x, .b y =>
    match Bool.decEq x y with
    | isTrue h => isTrue (by rw [h])
    | isFalse h => isFalse (by intro hh; injection hh with h2; exact h h2)
  | .b _, .n _ => isFalse (fun h => JVal.noConfusion h)
  | .b _, .s _ => isFalse (fun h => JVal.noConfusion h)
  | .b _, .arr _ => isFalse (fun h => JVal.noConfusion h)
  | .b _, .obj _ => isFalse (fun h => JVal.noConfusion h)
  | .n _, .null => isFalse (fun h => JVal.noConfusion h)
  | .n _, .b _ => isFalse (fun h => JVal.noConfusion h)
  | .n x, .n y =>
    match Int.decEq x y with
    | isTrue h => isTrue (by rw [h])
    | isFalse h => isFalse (by intro hh; injection hh with h2; exact h h2)
  | .n _, .s _ => isFalse (fun h => JVal.noConfusion h)
  | .n _, .arr _ => isFalse (fun h => JVal.noConfusion h)
  | .n _, .obj _ => isFalse (fun h => JVal.noConfusion h)
  | .s _, .null => isFalse (fun h => JVal.noConfusion h)
  | .s _, .b _ => isFalse (fun h => JVal.noConfusion h)
  | .s _, .n _ => isFalse (fun h => JVal.noConfusion h)
  | .s x, .s y =>
    match String.decEq x y with
    | isTrue h => isTrue (by rw [h])
    | isFalse h => isFalse (by intro hh; injection hh with h2; exact h h2)
  | .s _, .arr _ => isFalse (fun h => JVal.noConfusion h)
  | .s _, .obj _ => isFalse (fun h => JVal.noConfusion h)
  | .arr _, .null => isFalse (fun h => JVal.noConfusion h)
  | .arr _, .b _ => isFalse (fun h => JVal.noConfusion h)
  | .arr _, .n _ => isFalse (fun h => JVal.noConfusion h)
  | .arr _, .s _ => isFalse (fun h => JVal.noConfusion h)
  | .arr xs, .arr ys =>
    match jdecEqList xs ys with
    | isTrue h => isTrue (by rw [h])
    | isFalse h => isFalse (by intro hh; injection hh with h2; exact h h2)
  | .arr _, .obj _ => isFalse (fun h => JVal.noConfusion h)
  | .obj _, .null => isFalse (fun h => JVal.noConfusion h)
  | .obj _, .b _ => isFalse (fun h => JVal.noConfusion h)
  | .obj _, .n _ => isFalse (fun h => JVal.noConfusion h)
  | .obj _, .s _ => isFalse (fun h => JVal.noConfusion h)
  | .obj _, .arr _ => isFalse (fun h => JVal.noConfusion h)
  | .obj xs, .obj ys =>
    match jdecEqObj xs ys with
    | isTrue h => isTrue (by rw [h])
    | isFalse h => isFalse (by intro hh; injection hh with h2; exact h h2)

/-- Decidable equality on JSON arrays. -/
def jdecEqList : (xs ys : List JVal) → Decidable (xs = ys)
  | [], [] => isTrue rfl
  | [], _ :: _ => isFalse (fun h => List.noConfusion h)
  | _ :: _, [] => isFalse (fun h => List.noConfusion h)
  | x :: xs, y :: ys =>
    match jdecEq x y, jdecEqList xs ys with
    | isTrue h1, isTrue h2 => isTrue (by rw [h1, h2])
    | isFalse h1, _ => isFalse (by intro h; injection h with a _; exact h1 a)
    | _, isFalse h2 => isFalse (by intro h; injection h with _ b; exact h2 b)

/-- Decidable equality on JSON object entry lists. -/
def jdecEqObj : (xs ys : List (String × JVal)) → Decidable (xs = ys)
  | [], [] => isTrue rfl
  | [], _ :: _ => isFalse (fun h => List.noConfusion h)
  | _ :: _, [] => isFalse (fun h => List.noConfusion h)
  | (k1, v1) :: xs, (k2, v2) :: ys =>
    match String.decEq k1 k2, jdecEq v1 v2, jdecEqObj xs ys with
    | isTrue hk, isTrue hv, isTrue ht => isTrue (by rw [hk, hv, ht])
    | isFalse hk, _, _ => isFalse (by
        intro h; injection h with hp _; injection hp with a _; exact hk a)
    | _, isFalse hv, _ => isFalse (by
        intro h; injection h with hp _; injection hp with _ b; exact hv b)
    | _, _, isFalse ht => isFalse (by intro h; injection h with _ c; exact ht c)

end

instance : DecidableEq JVal := jdecEq

/-- Python exceptions that abort an extraction run. -/
inductive PyErr where
  | typeError : PyErr
  | keyError : PyErr
  | attributeError : PyErr
  | indexError : PyErr
  | valueError : PyErr
  | extractorError : PyErr
  deriving DecidableEq

instance {ε α : Type} [DecidableEq ε] [DecidableEq α] : DecidableEq (Except ε α) := fun a b =>
  match a, b with
  | .ok x, .ok y =>
    if h : x = y then isTrue (by rw [h])
    else isFalse (by intro hh; injection hh with h2; exact h h2)
  | .ok _, .error _ => isFalse (fun h => Except.noConfusion h)
  | .error _, .ok _ => isFalse (fun h => Except.noConfusion h)
  | .error x, .error y =>
    if h : x = y then isTrue (by rw [h])
    else isFalse (by intro hh; injection hh with h2; exact h h2)


/-- Python truthiness of a JSON value: `None`, `False`, `0`, `''`, `[]` and
`{}` are falsy, everything else truthy. -/
def pyTruthy : JVal → Bool
  | .null => false
  | .b bb => bb
  | .n v => v ≠ 0
  | .s str => str ≠ ""
  | .arr l => ¬ l.isEmpty
  | .obj l => ¬ l.isEmpty

/-- Truthiness of a `_download_json` result: a failed non-fatal download
(Python `False`) is falsy. -/
def pyTruthyOpt : Option JVal → Bool
  | none => false
  | some v => pyTruthy v

/-- Association-list lookup for JSON objects (first binding wins, matching
Python dict semantics where keys are unique anyway). -/
def jLookup (kvs : List (String × JVal)) (k : String) : Option JVal :=
  match kvs.find? (fun p => p.1 = k) with
  | some p => some p.2
  | none => none

/-- Python `d.get(k)` on a value known to be a dict, collapsing a stored JSON
`null` to Python `None` (i.e. `none`), since both read back as `None`. -/
def pyGet (kvs : List (String × JVal)) (k : String) : Option JVal :=
  match jLookup kvs k with
  | some .null => none
  | some v => some v
  | none => none

/-- Python `v.get(k)`: only dicts have `.get`; on any other value the
attribute access raises `AttributeError`. -/
def pyGetAttr : JVal → String → Except PyErr (Option JVal)
  | .obj kvs, k => .ok (pyGet kvs k)
  | _, _ => .error .attributeError

/-- Python `v[k]` with a string key: dicts look the key up (`KeyError` when
absent, a stored `null` reads back as `None`); every other value raises
`TypeError` for a string subscript. -/
def pyIndexStr : JVal → String → Except PyErr (Option JVal)
  | .obj kvs, k =>
    match jLookup kvs k with
    | some .null => .ok none
    | some v => .ok (some v)
    | none => .error .keyError
  | _, _ => .error .typeError

/-- Python `str()` of a decoded JSON value (as interpolated by f-strings). -/
def pyStrJ : JVal → String
  | .null => "None"
  | .b true => "True"
  | .b false => "False"
  | .n v => toString v
  | .s str => str
  | .arr _ => "[...]"
  | .obj _ => "{...}"

/-- Python iteration `for x in v`: lists yield their elements, strings their
characters, dicts their keys; `None`, booleans and numbers are not iterable
(`TypeError`). -/
def pyIterate : Option JVal → Except PyErr (List JVal)
  | some (.arr l) => .ok l
  | some (.s str) => .ok (str.data.map (fun c => JVal.s (String.mk [c])))
  | some (.obj kvs) => .ok (kvs.map (fun p => JVal.s p.1))
  | _ => .error .typeError

/-- Python hashability: lists and dicts cannot be dictionary keys. -/
def pyHashable : Option JVal → Bool
  | some (.arr _) => false
  | some (.obj _) => false
  | _ => true

/-- Python `int(v)` for decoded JSON values: ints pass through, booleans map
to 0/1, strings parse as an (optionally signed) integer literal; everything
else raises. -/
def pyInt : JVal → Option Int
  | .n v => some v
  | .b bb => some (cond bb 1 0)
  | .s str =>
    match str.data with
    | '-' :: ds =>
      if ds ≠ [] ∧ ds.all Char.isDigit then
        some (-(ds.foldl (fun a c => 10 * a + (c.toNat - 48)) 0 : Nat))
      else none
    | ds =>
      if ds ≠ [] ∧ ds.all Char.isDigit then
        some ((ds.foldl (fun a c => 10 * a + (c.toNat - 48)) 0 : Nat) : Int)
      else none
  | _ => none

/-- Modelled from the spec: the repository's `int_or_none` coercion helper
(declared in `yt_dlp/utils`, not under `src/`), the "type-safe integer
extraction" of the spec's out-of-scope helper list.  It computes
`int(v) // scale` (Python floor division, here `Int.fdiv`) and degrades to
`None` when `v` is `None` or not convertible. -/
def int_or_none (v : Option JVal) (scale : Int) : Option Int :=
  match v with
  | none => none
  | some w =>
    match pyInt w with
    | some i => some (Int.fdiv i scale)
    | none => none

/-- Modelled from the spec: the repository's `str_or_none` helper (not under
`src/`): `None` stays `None`, anything else is its `str()`. -/
def str_or_none (v : Option JVal) : Option String :=
  match v with
  | none => none
  | some w => some (pyStrJ w)

/-- Whitespace test for URL stripping. -/
def isSpaceChar (c : Char) : Bool :=
  c = ' ' ∨ c = '\t' ∨ c = '\n' ∨ c = '\r'

/-- Character-list prefix test. -/
def startsWithChars : List Char → List Char → Bool
  | [], _ => true
  | _ :: _, [] => false
  | c :: p, d :: l => c = d && startsWithChars p l

/-- Modelled from the spec: the repository's `url_or_none` helper (not under
`src/`), the "type-safe URL extraction": keeps a (stripped) string that has a
recognised scheme prefix, degrades to `None` otherwise. -/
def url_or_none (v : JVal) : Option String :=
  match v with
  | .s u =>
    let t := ((u.data.dropWhile isSpaceChar).reverse.dropWhile isSpaceChar).reverse
    if startsWithChars "http://".data t ∨ startsWithChars "https://".data t
        ∨ startsWithChars "//".data t then
      some (String.mk t)
    else none
  | _ => none

/-- Split of a character list at every slash. -/
def mtSplitSlash : List Char → List (List Char)
  | [] => [[]]
  | c :: rest =>
    if c = '/' then [] :: mtSplitSlash rest
    else
      match mtSplitSlash rest with
      | [] => [[c]]
      | h :: t => (c :: h) :: t

/-- Modelled from the spec: the repository's `mimetype2ext` helper (not under
`src/`), the "MIME-to-container mapping": a string `type/subtype` maps to its
container name (the subtype for the common video types used here); non-strings
degrade to `None`. -/
def mimetype2ext (v : JVal) : Option String :=
  match v with
  | .s mt =>
    match mtSplitSlash mt.data with
    | [_, sub] => some (String.mk sub)
    | _ => some mt
  | _ => none

/-- Days from 1970-01-01 to the given Gregorian date (valid for years
≥ 1970, adequate for the timestamps at hand). -/
def daysSinceEpoch (y m d : Nat) : Nat :=
  let isLeap : Nat → Bool := fun yy => (yy % 4 == 0 && yy % 100 != 0) || yy % 400 == 0
  let monthDays : List Nat := [31, 28, 31, 30, 31, 30, 31, 31, 30, 31, 30, 31]
  let yearDays := (List.range (y - 1970)).foldl
    (fun acc i => acc + (if isLeap (1970 + i) then 366 else 365)) 0
  let monthDaysAcc := ((monthDays.take (m - 1)).foldl (· + ·) 0)
    + (if m > 2 ∧ isLeap y then 1 else 0)
  yearDays + monthDaysAcc + (d - 1)

/-- Modelled from the spec: the repository's `parse_iso8601` helper (not
under `src/`), the "ISO-8601 timestamp parsing" primitive: a string of the
basic form `YYYY-MM-DDThh:mm:ss[...]` maps to epoch seconds, `None` and
non-strings degrade to `None`. -/
def parse_iso8601 (v : Option JVal) : Option Int :=
  match v with
  | some (.s str) =>
    match str.data with
    | y1 :: y2 :: y3 :: y4 :: '-' :: m1 :: m2 :: '-' :: d1 :: d2 :: 'T'
        :: h1 :: h2 :: ':' :: mi1 :: mi2 :: ':' :: s1 :: s2 :: _ =>
      if [y1, y2, y3, y4, m1, m2, d1, d2, h1, h2, mi1, mi2, s1, s2].all Char.isDigit then
        let num := fun (a b : Char) => (a.toNat - 48) * 10 + (b.toNat - 48)
        let y := (y1.toNat - 48) * 1000 + (y2.toNat - 48) * 100 + num y3 y4
        some (((daysSinceEpoch y (num m1 m2) (num d1 d2)) * 86400
          + (num h1 h2) * 3600 + (num mi1 mi2) * 60 + num s1 s2 : Nat) : Int)
      else none
    | _ => none
  | _ => none

/-- The standard base64 alphabet. -/
def b64chars : List Char :=
  "ABCDEFGHIJKLMNOPQRSTUVWXYZabcdefghijklmnopqrstuvwxyz0123456789+/".data

/-- Index of a character in the base64 alphabet. -/
def charVal (c : Char) : Option Nat :=
  b64chars.findIdx? (· = c)

/-- Alphabet character of a 6-bit value. -/
def alphaChar (v : Nat) : Char :=
  b64chars.getD v ' '

/-- The eight bits of a byte, most significant first. -/
def byteBits (v : Nat) : List Bool :=
  [v.testBit 7, v.testBit 6, v.testBit 5, v.testBit 4,
   v.testBit 3, v.testBit 2, v.testBit 1, v.testBit 0]

/-- The six bits of a base64 digit, most significant first. -/
def sext6 (v : Nat) : List Bool :=
  [v.testBit 5, v.testBit 4, v.testBit 3, v.testBit 2, v.testBit 1, v.testBit 0]

/-- Numeric value of a bit string, most significant first. -/
def bitsVal (l : List Bool) : Nat :=
  l.foldl (fun a bb => 2 * a + cond bb 1 0) 0

/-- Chunks of six. -/
def chunk6 : List Bool → List (List Bool)
  | a :: b :: c :: d :: e :: f :: rest => [a, b, c, d, e, f] :: chunk6 rest
  | [] => []
  | l => [l]

/-- Chunks of eight. -/
def chunk8 : List Bool → List (List Bool)
  | a :: b :: c :: d :: e :: f :: g :: h :: rest => [a, b, c, d, e, f, g, h] :: chunk8 rest
  | [] => []
  | l => [l]

/-- Bit string of a byte string. -/
def bytesToBits (B : List Nat) : List Bool :=
  (B.map byteBits).flatten

/-- The base64 digit characters of a byte string (canonical encoding before
`=`-padding). -/
def b64encodeChars (B : List Nat) : List Char :=
  (chunk6 (bytesToBits B ++ List.replicate ((6 - (bytesToBits B).length % 6) % 6) false)).map
    (fun l => alphaChar (bitsVal l))

/-- Number of `=` padding characters of the canonical base64 encoding. -/
def b64padCount (B : List Nat) : Nat :=
  (3 - B.length % 3) % 3

/-- Canonical padded base64 encoding of a byte string. -/
def b64encodePadded (B : List Nat) : List Char :=
  b64encodeChars B ++ List.replicate (b64padCount B) '='

/-- Modelled from the spec: stdlib `base64.b64decode` (an external decoding
primitive, not repository code), in its default non-strict mode, restricted
to inputs whose `=` characters are all trailing — the only shape the
resolvers produce, since the token regexes admit no `=` and the code only
appends `===` at the end.  Non-alphabet characters before the padding are
discarded (CPython skips invalid bytes in non-strict mode); the decode fails
(`binascii.Error`) when the number of base64 digits is `1 (mod 4)`, or when
it is not `0 (mod 4)` and too few `=` follow to complete the final quantum. -/
def b64decodePy (input : List Char) : Option (List Nat) :=
  let pre := input.takeWhile (· ≠ '=')
  let suf := input.drop pre.length
  if ¬ suf.all (· = '=') then none
  else
    let vals := pre.filterMap charVal
    let r := vals.length % 4
    if r = 1 then none
    else if r ≠ 0 ∧ suf.length < 4 - r then none
    else
      let bits := (vals.map sext6).flatten
      some ((chunk8 (bits.take (8 * (bits.length / 8)))).map bitsVal)

/-- Python `str.split(sep)` for a single-character separator: splits at every
occurrence, keeping empty pieces (`''.split('.') == ['']`). -/
def pySplit (sep : Char) : List Char → List (List Char)
  | [] => [[]]
  | c :: rest =>
    if c = sep then [] :: pySplit sep rest
    else
      match pySplit sep rest with
      | [] => [[c]]
      | h :: t => (c :: h) :: t

/-- The token-decoding pipeline shared by `BlackboardCollaborateLaunchIE` and
`BlackboardClassCollaborateIE`:
`base64.b64decode(token.split('.')[1] + '===')`.  `none` models the raised
exception (`IndexError` when the token has no second dot-separated segment,
`binascii.Error` when the decode fails). -/
def tokenPayload (token : List Char) : Option (List Nat) :=
  match (pySplit '.' token).get? 1 with
  | none => none
  | some mid => b64decodePy (mid ++ ['=', '=', '='])

/-- Bytes reinterpreted as characters (the token payloads at hand are
ASCII). -/
def jsonChars (bs : List Nat) : List Char :=
  bs.map Char.ofNat

/-- JSON whitespace skipping. -/
def skipWs (l : List Char) : List Char :=
  l.dropWhile (fun c => c = ' ' ∨ c = '\n' ∨ c = '\t' ∨ c = '\r')

/-- String-literal body parser (after the opening quote): returns the string
and the rest of the input.  `\u` escapes are not needed by the payloads at
hand and make the parse fail. -/
def parseStringBody (acc : List Char) : List Char → Option (String × List Char)
  | [] => none
  | '"' :: rest => some (String.mk acc.reverse, rest)
  | '\\' :: e :: rest =>
    match e with
    | '"' => parseStringBody ('"' :: acc) rest
    | '\\' => parseStringBody ('\\' :: acc) rest
    | '/' => parseStringBody ('/' :: acc) rest
    | 'n' => parseStringBody ('\n' :: acc) rest
    | 't' => parseStringBody ('\t' :: acc) rest
    | 'r' => parseStringBody ('\r' :: acc) rest
    | 'b' => parseStringBody (Char.ofNat 8 :: acc) rest
    | 'f' => parseStringBody (Char.ofNat 12 :: acc) rest
    | _ => none
  | c :: rest => parseStringBody (c :: acc) rest

/-- Natural number denoted by a digit string. -/
def digitsVal (ds : List Char) : Nat :=
  ds.foldl (fun a c => 10 * a + (c.toNat - 48)) 0

/-- Integer-literal parser (fractions and exponents are not needed by the
payloads at hand and make the parse fail). -/
def parseIntTok (l : List Char) : Option (JVal × List Char) :=
  let (neg, body) := match l with
    | '-' :: rest => (true, rest)
    | _ => (false, l)
  let ds := body.takeWhile Char.isDigit
  let rest := body.drop ds.length
  if ds = [] then none
  else
    match rest with
    | '.' :: _ => none
    | 'e' :: _ => none
    | 'E' :: _ => none
    | _ => some (.n (if neg then -(digitsVal ds : Int) else (digitsVal ds : Int)), rest)

mutual

/-- Modelled from the spec: stdlib `json.loads` (a "JSON parsing primitive"
the spec lists as out of scope), as a fuelled recursive-descent parser over
the integer/string/bool/null/array/object fragment the token payloads use. -/
def parseVal : Nat → List Char → Option (JVal × List Char)
  | 0, _ => none
  | fuel + 1, input =>
    match skipWs input with
    | 'n' :: 'u' :: 'l' :: 'l' :: rest => some (.null, rest)
    | 't' :: 'r' :: 'u' :: 'e' :: rest => some (.b true, rest)
    | 'f' :: 'a' :: 'l' :: 's' :: 'e' :: rest => some (.b false, rest)
    | '"' :: rest =>
      match parseStringBody [] rest with
      | some (str, r) => some (.s str, r)
      | none => none
    | '[' :: rest =>
      match skipWs rest with
      | ']' :: r2 => some (.arr [], r2)
      | r1 =>
        match parseArrItems fuel r1 with
        | some (items, r2) => some (.arr items, r2)
        | none => none
    | '{' :: rest =>
      match skipWs rest with
      | '}' :: r2 => some (.obj [], r2)
      | r1 =>
        match parseObjItems fuel r1 with
        | some (items, r2) => some (.obj items, r2)
        | none => none
    | l => parseIntTok l

/-- Comma-separated array items up to the closing bracket. -/
def parseArrItems : Nat → List Char → Option (List JVal × List Char)
  | 0, _ => none
  | fuel + 1, input =>
    match parseVal fuel input with
    | some (v, r) =>
      match skipWs r with
      | ',' :: r2 =>
        match parseArrItems fuel r2 with
        | some (items, r3) => some (v :: items, r3)
        | none => none
      | ']' :: r2 => some ([v], r2)
      | _ => none
    | none => none

/-- Comma-separated object entries up to the closing brace. -/
def parseObjItems : Nat → List Char → Option (List (String × JVal) × List Char)
  | 0, _ => none
  | fuel + 1, input =>
    match skipWs input with
    | '"' :: rest =>
      match parseStringBody [] rest with
      | some (k, r) =>
        match skipWs r with
        | ':' :: r2 =>
          match parseVal fuel r2 with
          | some (v, r3) =>
            match skipWs r3 with
            | ',' :: r4 =>
              match parseObjItems fuel r4 with
              | some (items, r5) => some ((k, v) :: items, r5)
              | none => none
            | '}' :: r4 => some ([(k, v)], r4)
            | _ => none
          | none => none
        | _ => none
      | none => none
    | _ => none

end

/-- Whole-input JSON parse of a byte string. -/
def jsonParse (bs : List Nat) : Option JVal :=
  match parseVal (2 * bs.length + 4) (jsonChars bs) with
  | some (v, rest) => if (skipWs rest).isEmpty then some v else none
  | none => none

/-- Hexadecimal digit value. -/
def hexVal (c : Char) : Option Nat :=
  if c.isDigit then some (c.toNat - 48)
  else if 'a' ≤ c ∧ c ≤ 'f' then some (c.toNat - 87)
  else if 'A' ≤ c ∧ c ≤ 'F' then some (c.toNat - 55)
  else none

/-- Modelled from the spec: stdlib `urllib.parse.unquote` (an external URL
primitive, not repository code) over the ASCII range: `%xx` escapes decode to
the corresponding character, malformed escapes pass through. -/
def pyUnquote : List Char → List Char
  | '%' :: a :: b :: rest =>
    match hexVal a, hexVal b with
    | some x, some y => Char.ofNat (16 * x + y) :: pyUnquote rest
    | _, _ => '%' :: pyUnquote (a :: b :: rest)
  | c :: rest => c :: pyUnquote rest
  | [] => []

/-- Python bearer-token value: `mobj.group('token')` is a string, while
`parse_qs(url).get('authToken')` is a non-empty list of strings. -/
inductive PyTok where
  | str : String → PyTok
  | list : List String → PyTok

/-- Truthiness of a token value. -/
def pyTokTruthy : PyTok → Bool
  | .str t => t ≠ ""
  | .list l => ¬ l.isEmpty

/-- Python `str()` / f-string interpolation of a token value: a list renders
as its `repr`, e.g. `['tok']`. -/
def pyStrTok : PyTok → String
  | .str t => t
  | .list l => "[" ++ String.intercalate ", " (l.map (fun x => "'" ++ x ++ "'")) ++ "]"

/-- Modelled from the spec: the repository's `parse_qs` helper (not under
`src/`) is the standard query-string parser of the same stdlib name: each key
maps to the list of its non-blank values (blank values are dropped by
default), and `.get` on a missing key gives `None`.  Here specialised to the
values of one key over the query pairs of the input URL. -/
def parse_qs_get (query : List (String × String)) (key : String) : Option PyTok :=
  let vals := (query.filter (fun p => p.1 = key ∧ p.2 ≠ "")).map (·.2)
  if vals.isEmpty then none else some (.list vals)

/-- `token = mobj.group('token') or parse_qs(url).get('authToken')`:
the regex group (a string, falsy when empty) takes precedence, otherwise the
`parse_qs` list (or `None`). -/
def tokenOf (mtok : Option String) (query : List (String × String)) : Option PyTok :=
  match mtok with
  | some t => if t = "" then parse_qs_get query "authToken" else some (.str t)
  | none => parse_qs_get query "authToken"

/-- The `Authorization` header value `_call_api` sends:
`{'Authorization': f'Bearer {token}'} if token else ''`. -/
def authHeaderOf (token : Option PyTok) : Option String :=
  match token with
  | some tv => if pyTokTruthy tv then some ("Bearer " ++ pyStrTok tv) else none
  | none => none

/-- The URL `_call_api` requests:
`https://{region}.bbcollab.com/collab/api/csa/recordings/{video_id}/{api_call}`. -/
def callApiUrl (region vid apiCall : String) : String :=
  "https://" ++ region ++ ".bbcollab.com/collab/api/csa/recordings/" ++ vid ++ "/" ++ apiCall

/-- One JSON request as issued by an extractor (target URL plus the
`Authorization` header value, if any). -/
structure ApiReq where
  url : String
  auth : Option String
  deriving DecidableEq

/-- Host transport oracle: the response the host's download engine returns
for a request, `none` being a failed download (which `_download_json`
surfaces as `False` when non-fatal and as a raised `ExtractorError` when
fatal). -/
def Oracle : Type := String → Option String → Option JVal

/-- A format record built by the `extStreams` traversal.  `url`, `container`
and `aspect_ratio` are `none` when `traverse_obj` dropped the key (no match
or a `None` transform result); `filesize` is set afterwards for every entry
and may hold Python `None`. -/
structure Format where
  url : Option String
  container : Option String
  aspect_ratio : Option JVal
  filesize : Option Int
  deriving DecidableEq

/-- Branching step `...` of `traverse_obj`: a list branches over its
elements, a dict over its values, anything else matches nothing. -/
def travBranch : JVal → List JVal
  | .arr l => l
  | .obj kvs => kvs.map (·.2)
  | _ => []

/-- One `extStreams` entry mapped through
`{'url': ('streamUrl', {url_or_none}), 'container': ('contentType',
{mimetype2ext}), 'aspect_ratio': ('aspectRatio')}` (a key whose sub-traversal
yields `None` is dropped). -/
def formatOf (x : JVal) : Format :=
  let g : String → Option JVal := fun k =>
    match x with
    | .obj kvs => pyGet kvs k
    | _ => none
  { url := (g "streamUrl").bind url_or_none
    container := (g "contentType").bind mimetype2ext
    aspect_ratio := g "aspectRatio"
    filesize := none }

/-- `traverse_obj(video_info, ('extStreams', ..., {...}))`: branching with no
default yields `[]` when nothing matches. -/
def formatsOf (info : JVal) : List Format :=
  match info with
  | .obj kvs =>
    match pyGet kvs "extStreams" with
    | some v => (travBranch v).map formatOf
    | none => []
  | _ => []

/-- Subtitle-dictionary keys are arbitrary Python values (`lang` may be any
JSON value or `None`). -/
abbrev PyKey : Type := Option JVal

/-- One output subtitle entry. -/
structure SubEntry where
  name : Option String
  url : Option String
  deriving DecidableEq

/-- Sequential effectful map mirroring a Python `for` loop: elements are
processed in order and the first raised exception aborts the whole loop. -/
def mapE {a b : Type} (f : a → Except PyErr b) : List a → Except PyErr (List b)
  | [] => .ok []
  | x :: l =>
    match f x with
    | .error e => .error e
    | .ok y =>
      match mapE f l with
      | .error e => .error e
      | .ok ys => .ok (y :: ys)

/-- The body of `for current_subs in video_info.get('subtitles')`: reads
`lang` (the dict key; unhashable values raise `TypeError` at `setdefault`),
then builds `{'name': str_or_none(..get('label')), 'url':
url_or_none(..['url'])}`. -/
def subProc (e : JVal) : Except PyErr (PyKey × SubEntry) :=
  match pyGetAttr e "lang" with
  | .error err => .error err
  | .ok lang =>
    if ¬ pyHashable lang then .error .typeError
    else
      match pyGetAttr e "label" with
      | .error err => .error err
      | .ok label =>
        match pyIndexStr e "url" with
        | .error err => .error err
        | .ok u => .ok (lang, { name := str_or_none label, url := u.bind url_or_none })

/-- The body of `for current_chat in video_info.get('chats')`:
`{'url': url_or_none(current_chat['url'])}` under the fixed key
`'live_chat'`. -/
def chatProc (e : JVal) : Except PyErr (PyKey × SubEntry) :=
  match pyIndexStr e "url" with
  | .error err => .error err
  | .ok u => .ok (some (.s "live_chat"), { name := none, url := u.bind url_or_none })

/-- The subtitle mapping in insertion order. -/
abbrev SubMap : Type := List (PyKey × List SubEntry)

/-- `subtitles.setdefault(key, []).append(entry)` on an insertion-ordered
association list. -/
def setdefaultAppend (m : SubMap) (k : PyKey) (v : SubEntry) : SubMap :=
  match m with
  | [] => [(k, [v])]
  | (k0, vs) :: rest =>
    if k0 = k then (k0, vs ++ [v]) :: rest
    else (k0, vs) :: setdefaultAppend rest k v

/-- Folding a run of `(key, entry)` insertions into the mapping. -/
def buildSubs (pairs : List (PyKey × SubEntry)) : SubMap :=
  pairs.foldl (fun m p => setdefaultAppend m p.1 p.2) []

/-- Bucket of a key in the mapping (`[]` when absent). -/
def subsAt (m : SubMap) (k : PyKey) : List SubEntry :=
  match m.find? (fun p => p.1 = k) with
  | some p => p.2
  | none => []

/-- The normalized media-description record the single-recording resolver
returns. -/
structure MediaInfo where
  duration : Option Int
  formats : List Format
  id : String
  timestamp : Option Int
  subtitles : SubMap
  title : Option JVal
  deriving DecidableEq

/-- `cur_format['filesize'] = int_or_none(video_extra.get('storageSize'))`
for one format: `video_extra` is `False` after a failed non-fatal fetch (and
may be any JSON value otherwise), and `.get` on anything but a dict raises
`AttributeError`. -/
def filesizeStep (extra : Option JVal) (f : Format) : Except PyErr Format :=
  match extra with
  | some (.obj kvs) => .ok { f with filesize := int_or_none (pyGet kvs "storageSize") 1 }
  | _ => .error .attributeError

/-- Lines 128–159 of `BlackboardCollaborateIE._real_extract`: processing of a
fetched `video_info` (with `video_extra` being the extra-attributes response,
`none` for the Python `False` of a failed non-fatal fetch).  Mirrors the
source order: duration/title/created reads, the `extStreams` traversal, the
per-format `filesize` decoration (a `.get` on a failed `video_extra` raises
`AttributeError`), the subtitles loop, the chats loop. -/
def processRecording (vid : String) (info : JVal) (extra : Option JVal) :
    Except PyErr MediaInfo :=
  match pyGetAttr info "duration" with
  | .error e => .error e
  | .ok dur =>
    match pyGetAttr info "name" with
    | .error e => .error e
    | .ok title =>
      match pyGetAttr info "created" with
      | .error e => .error e
      | .ok uploadDate =>
        match mapE (filesizeStep extra) (formatsOf info) with
        | .error e => .error e
        | .ok formats =>
          match pyGetAttr info "subtitles" with
          | .error e => .error e
          | .ok subsVal =>
            match pyIterate subsVal with
            | .error e => .error e
            | .ok subsList =>
              match mapE subProc subsList with
              | .error e => .error e
              | .ok subPairs =>
                match pyGetAttr info "chats" with
                | .error e => .error e
                | .ok chatsVal =>
                  match pyIterate chatsVal with
                  | .error e => .error e
                  | .ok chatsList =>
                    match mapE chatProc chatsList with
                    | .error e => .error e
                    | .ok chatPairs =>
                      .ok { duration := int_or_none dur 1000
                            formats := formats
                            id := vid
                            timestamp := parse_iso8601 uploadDate
                            subtitles := buildSubs (subPairs ++ chatPairs)
                            title := title }

/-- Result of one resolution call: the returned record (or the Python
exception that aborted it) together with the requests issued, in order. -/
structure ExtractRes where
  result : Except PyErr MediaInfo
  log : List ApiReq

/-- `BlackboardCollaborateIE._real_extract` after URL matching: `region` and
`id` are the named groups, `mtok` the optional `token` group, `query` the
query pairs of the input URL.  Tries `data/secure` with the bearer header
(non-fatal); when the result is truthy fetches the extra attributes
(non-fatal) and processes, otherwise falls back to the unauthenticated
`data` endpoint (fatal) and processes its result with an empty
`video_extra`. -/
def real_extract_recording (oracle : Oracle) (region vid : String)
    (mtok : Option String) (query : List (String × String)) : ExtractRes :=
  let token := tokenOf mtok query
  let auth := authHeaderOf token
  let secureReq : ApiReq := ⟨callApiUrl region vid "data/secure", auth⟩
  let secureRes := oracle secureReq.url secureReq.auth
  match secureRes with
  | some v =>
    if pyTruthy v then
      let extraReq : ApiReq := ⟨callApiUrl region vid "", auth⟩
      let extraRes := oracle extraReq.url extraReq.auth
      ⟨processRecording vid v extraRes, [secureReq, extraReq]⟩
    else
      let fbReq : ApiReq := ⟨callApiUrl region vid "data", none⟩
      match oracle fbReq.url fbReq.auth with
      | none => ⟨.error .extractorError, [secureReq, fbReq]⟩
      | some d => ⟨processRecording vid d (some (.obj [])), [secureReq, fbReq]⟩
  | none =>
    let fbReq : ApiReq := ⟨callApiUrl region vid "data", none⟩
    match oracle fbReq.url fbReq.auth with
    | none => ⟨.error .extractorError, [secureReq, fbReq]⟩
    | some d => ⟨processRecording vid d (some (.obj [])), [secureReq, fbReq]⟩

/-- String-keyed `traverse_obj` path: each step looks the key up in a dict
(missing key, non-dict step — including a string key applied to a list — and
`null` values all yield Python `None`, i.e. `none`). -/
def traverse_obj_strs (v : JVal) (path : List String) : Option JVal :=
  path.foldl
    (fun acc k =>
      match acc with
      | some (.obj kvs) => pyGet kvs k
      | _ => none)
    (some v)

/-- A `url_result` record. -/
structure UrlResult where
  url : String
  ie : String
  videoId : Option JVal
  deriving DecidableEq

/-- `BlackboardCollaborateLaunchIE._real_extract` after URL matching:
decodes the token's middle segment (base64 + JSON) to pull out
`resourceAccessTicket.resourceId`, follows the redirect of a plain GET of the
input URL (`redirect` is the final URL the host transport reports, `none` a
failed fatal request) and defers to `BlackboardCollaborateIE`. -/
def launch_real_extract (redirect : Option String) (token : String) :
    Except PyErr UrlResult :=
  match tokenPayload token.data with
  | none => .error .valueError
  | some bs =>
    match jsonParse bs with
    | none => .error .valueError
    | some j =>
      let videoId := traverse_obj_strs j ["resourceAccessTicket", "resourceId"]
      match redirect with
      | none => .error .extractorError
      | some u => .ok ⟨u, "BlackboardCollaborate", videoId⟩

/-- Metadata carried through the smuggled-URL side channel (unsmuggled with
default `{}`, i.e. all fields `None`). -/
structure SmuggledData where
  title : Option JVal
  alt_title : Option JVal
  description : Option JVal
  modified_timestamp : Option Int
  channel_id : Option String
  deriving DecidableEq

/-- A playlist entry emitted by `BlackboardClassCollaborateIE`. -/
structure ClassEntry where
  id : Option JVal
  url : Option JVal
  view_count : Option JVal
  duration : ℚ
  availability : String
  deriving DecidableEq

/-- The playlist record `BlackboardClassCollaborateIE` returns. -/
structure PlaylistRes where
  entries : List ClassEntry
  playlist_count : Option JVal
  title : Option JVal
  alt_title : Option JVal
  description : Option JVal
  modified_timestamp : Option Int
  channel_id : Option String
  deriving DecidableEq

/-- Loop body of `BlackboardClassCollaborateIE._real_extract` for one result
`i`: fetches `{endpoint}/{i['id']}/url` (fatal), indexes its `url`, reads
`publicLinkAllowed` for the availability tag, and builds the entry with
`view_count = i['playbackCount']` and `duration = i['duration'] / 1000`
(Python true division, exact rational; non-numeric operands raise
`TypeError`).  Returns the entry together with the request issued (empty when
the crash happens before the request). -/
def classItemProc (oracle : Oracle) (endpoint auth : String) (i : JVal) :
    Except PyErr ClassEntry × List ApiReq :=
  match pyIndexStr i "id" with
  | .error e => (.error e, [])
  | .ok iid =>
    let itemUrl := endpoint ++ "/" ++ pyStrJ (iid.getD .null) ++ "/url"
    let req : ApiReq := ⟨itemUrl, some auth⟩
    match oracle itemUrl (some auth) with
    | none => (.error .extractorError, [req])
    | some resp =>
      let entry : Except PyErr ClassEntry :=
        match pyIndexStr resp "url" with
        | .error e => .error e
        | .ok curUrl =>
          match pyIndexStr i "publicLinkAllowed" with
          | .error e => .error e
          | .ok pla =>
            match pyIndexStr i "playbackCount" with
            | .error e => .error e
            | .ok vc =>
              match pyIndexStr i "duration" with
              | .error e => .error e
              | .ok dur =>
                match dur with
                | some (.n v) =>
                  .ok ⟨iid, curUrl, vc, (v : ℚ) / 1000,
                       if pyTruthyOpt pla then "public" else "needs_auth"⟩
                | some (.b bb) =>
                  .ok ⟨iid, curUrl, vc, ((cond bb 1 0 : Int) : ℚ) / 1000,
                       if pyTruthyOpt pla then "public" else "needs_auth"⟩
                | _ => .error .typeError
      (entry, [req])

/-- Folds `classItemProc` over the results, accumulating entries and the
request log and stopping at the first crash. -/
def classItems (oracle : Oracle) (endpoint auth : String) :
    List JVal → Except PyErr (List ClassEntry) × List ApiReq
  | [] => (.ok [], [])
  | i :: rest =>
    match classItemProc oracle endpoint auth i with
    | (.error e, l) => (.error e, l)
    | (.ok entry, l) =>
      match classItems oracle endpoint auth rest with
      | (.ok entries, l2) => (.ok (entry :: entries), l ++ l2)
      | (.error e, l2) => (.error e, l ++ l2)

/-- `BlackboardClassCollaborateIE._real_extract` after URL matching and
unsmuggling: unquotes the token, decodes its middle segment to the
`token_info` JSON (whose `context` is read, `KeyError` when absent), lists
the recordings with `Bearer {token}` (fatal), resolves each item and emits
the playlist with the smuggled metadata and
`playlist_count = playlist_info['size']`. -/
def class_real_extract (oracle : Oracle) (region rawToken : String)
    (data : SmuggledData) : Except PyErr PlaylistRes × List ApiReq :=
  let token := (pyUnquote rawToken.data).asString
  match tokenPayload token.data with
  | none => (.error .valueError, [])
  | some bs =>
    match jsonParse bs with
    | none => (.error .valueError, [])
    | some tokenInfo =>
      match pyIndexStr tokenInfo "context" with
      | .error e => (.error e, [])
      | .ok _ctx =>
        let endpoint := "https://" ++ region ++ ".bbcollab.com/collab/api/csa/recordings"
        let auth := "Bearer " ++ token
        let req0 : ApiReq := ⟨endpoint, some auth⟩
        match oracle endpoint (some auth) with
        | none => (.error .extractorError, [req0])
        | some plInfo =>
          match pyIndexStr plInfo "results" with
          | .error e => (.error e, [req0])
          | .ok res =>
            match pyIterate res with
            | .error e => (.error e, [req0])
            | .ok items =>
              match classItems oracle endpoint auth items with
              | (.error e, l) => (.error e, req0 :: l)
              | (.ok entries, l) =>
                match pyIndexStr plInfo "size" with
                | .error e => (.error e, req0 :: l)
                | .ok size =>
                  (.ok { entries := entries
                         playlist_count := size
                         title := data.title
                         alt_title := data.alt_title
                         description := data.description
                         modified_timestamp := data.modified_timestamp
                         channel_id := data.channel_id }, req0 :: l)

/-- The HTML launch page of the single-course resolver, abstracted to the
values its two regex scrapes produce (the spec places "HTML parsing
primitives" outside this module): the hidden `<input>` name/value pairs and
the `<form action>` target (`none` when `_html_search_regex` finds no match,
which is fatal). -/
structure CoursePage where
  attrs : List (String × String)
  formAction : Option String

/-- A `url_result` wrapped around a smuggled URL. -/
structure SmugUrlResult where
  url : String
  data : SmuggledData
  ie : String
  videoId : Option JVal
  deriving DecidableEq

/-- `BlackboardCollaborateUltraSingleCourseIE._real_extract` after URL
matching: fetches the launch page (fatal), scrapes the form (missing action
fatal), POSTs it and follows the redirect (fatal), best-effort fetches
`/learn/api/v1/courses/{course_id}` (`courseMeta`, `none` for a failed
download) and re-dispatches the redirect URL with the course metadata
smuggled.  Note the unconditional `.get` calls on `course_info`: a failed
metadata fetch leaves `False`, on which `.get` raises `AttributeError`. -/
def singlecourse_real_extract (coursePage : Option CoursePage)
    (redirectUrl : Option String) (courseMeta : Option JVal)
    (courseId : String) : Except PyErr SmugUrlResult :=
  match coursePage with
  | none => .error .extractorError
  | some page =>
    match page.formAction with
    | none => .error .extractorError
    | some _endpoint =>
      match redirectUrl with
      | none => .error .extractorError
      | some redirect =>
        match courseMeta with
        | some (.obj kvs) =>
          .ok ⟨redirect,
               { title := pyGet kvs "displayName"
                 alt_title := pyGet kvs "displayId"
                 description := pyGet kvs "description"
                 modified_timestamp := parse_iso8601 (pyGet kvs "modifiedDate")
                 channel_id := some courseId },
               "BlackboardClassCollaborate", none⟩
        | some _ => .error .attributeError
        | none => .error .attributeError

/-- Python `len()` of a decoded JSON value: lists, strings and dicts have a
length, `None`, booleans and numbers raise `TypeError`. -/
def pyLen : Option JVal → Except PyErr Nat
  | some (.arr l) => .ok l.length
  | some (.s str) => .ok str.length
  | some (.obj kvs) => .ok kvs.length
  | _ => .error .typeError

/-- `number_of_courses > courses_found`: Python comparison of the stored
count (an `Option JVal`, `None` when `('paging', 'count')` was absent) with
the integer accumulator; comparing `None` or a non-number with an int raises
`TypeError`. -/
def pyGtNat : Option JVal → Nat → Except PyErr Bool
  | some (.n c), f => .ok (decide ((f : Int) < c))
  | some (.b bb), f => .ok (decide ((f : Int) < (cond bb 1 0 : Int)))
  | _, _ => .error .typeError

/-- One page request of the all-courses pagination loop: the offset appended
to the membership endpoint and the `video_id` argument passed to
`_download_json` (the `user_id` traversed from the previous page). -/
structure AcReq where
  offset : Nat
  videoId : Option JVal
  deriving DecidableEq

/-- A playlist entry emitted by `BlackboardCollaborateUltraAllCoursesIE`
(`url` holds either the truthy `externalAccessUrl` value verbatim or the
constructed `{host}/{homePageUrl}` string). -/
structure AcEntry where
  id : Option JVal
  title : Option JVal
  alt_title : Option JVal
  url : JVal
  deriving DecidableEq

/-- `traverse_obj(current_page, ('results', ..., 'course'))`: branch over the
results, keep each element's `course` dict value (non-dict elements and
`null` courses match nothing). -/
def coursesOf (page : JVal) : List JVal :=
  match page with
  | .obj kvs =>
    match pyGet kvs "results" with
    | some v =>
      (travBranch v).filterMap (fun x =>
        match x with
        | .obj k2 => pyGet k2 "course"
        | _ => none)
    | none => []
  | _ => []

/-- Body of the per-course loop: courses with truthy `isAvailable` (indexed,
so a missing key raises `KeyError`) become entries; `url` falls back from a
falsy `externalAccessUrl` to the f-string `{host}/{current_course.get('homePageUrl')}`. -/
def courseEntry (host : String) (c : JVal) : Except PyErr (Option AcEntry) := do
  let avail ← pyIndexStr c "isAvailable"
  if pyTruthyOpt avail then
    let g : String → Option JVal := fun k =>
      match c with
      | .obj kvs => pyGet kvs k
      | _ => none
    let fallback : JVal := .s (host ++ "/" ++
      (match g "homePageUrl" with
       | some w => pyStrJ w
       | none => "None"))
    let url : JVal := match g "externalAccessUrl" with
      | some v => if pyTruthy v then v else fallback
      | none => fallback
    pure (some ⟨g "id", g "displayName", g "displayId", url⟩)
  else
    pure none

/-- All entries a page contributes, in server order. -/
def processPage (host : String) (page : JVal) : Except PyErr (List AcEntry) :=
  match mapE (courseEntry host) (coursesOf page) with
  | .error e => .error e
  | .ok opts => .ok opts.reduceOption

/-- State of the pagination loop of
`BlackboardCollaborateUltraAllCoursesIE._real_extract`. -/
structure AcState where
  count : Option JVal
  found : Nat
  userId : Option JVal
  entries : List AcEntry
  log : List AcReq
  deriving DecidableEq

/-- Initial loop state: `number_of_courses, courses_found, user_id, entries
= 1, 0, None, []`. -/
def acInit : AcState :=
  ⟨some (.n 1), 0, none, [], []⟩

/-- Outcome of running the pagination loop with bounded fuel: the loop
condition became false (`done`), the fuel ran out with the loop still going
(`fuelOut`), or a Python exception aborted the run (`crashed`). -/
inductive AcOutcome where
  | done : AcState → AcOutcome
  | fuelOut : AcState → AcOutcome
  | crashed : PyErr → AcState → AcOutcome
  deriving DecidableEq

/-- The pagination loop of
`BlackboardCollaborateUltraAllCoursesIE._real_extract` (lines 325–352),
driven by a page oracle keyed by the `offset` query value (which the code
sets to `courses_found`): while `number_of_courses > courses_found`, fetch
the page (fatal on download failure), re-read the reported
`('paging', 'count')`, traverse `('results', '0', 'userId')` into `user_id`,
advance `courses_found` by `len(current_page['results'])` and append the
available courses' entries.  No bound other than the fuel exists in the
source. -/
def acRun (oracle : Nat → Option JVal) (host : String) : Nat → AcState → AcOutcome
  | 0, s => .fuelOut s
  | fuel + 1, s =>
    match pyGtNat s.count s.found with
    | .error e => .crashed e s
    | .ok false => .done s
    | .ok true =>
      let req : AcReq := ⟨s.found, s.userId⟩
      match oracle s.found with
      | none => .crashed .extractorError { s with log := s.log ++ [req] }
      | some page =>
        let count' := traverse_obj_strs page ["paging", "count"]
        let uid := traverse_obj_strs page ["results", "0", "userId"]
        match pyIndexStr page "results" with
        | .error e => .crashed e { s with count := count', userId := uid, log := s.log ++ [req] }
        | .ok res =>
          match pyLen res with
          | .error e => .crashed e { s with count := count', userId := uid, log := s.log ++ [req] }
          | .ok lenRes =>
            match processPage host page with
            | .error e =>
              .crashed e { count := count', found := s.found + lenRes, userId := uid,
                           entries := s.entries, log := s.log ++ [req] }
            | .ok newEntries =>
              acRun oracle host fuel
                { count := count'
                  found := s.found + lenRes
                  userId := uid
                  entries := s.entries ++ newEntries
                  log := s.log ++ [req] }

/-- The request log of a loop outcome. -/
def acLog : AcOutcome → List AcReq
  | .done s => s.log
  | .fuelOut s => s.log
  | .crashed _ s => s.log

/-- Claim C1: in the single-recording resolver, `recordings/{id}/data/secure`
is always requested first with the derived bearer header; the unauthenticated
`recordings/{id}/data` endpoint is requested (with no `Authorization` header)
exactly when the secure call yields no data (a failed download or a falsy
JSON result); a failed fallback aborts the extraction with an error; a
successful fallback result is processed by the same `processRecording`
pipeline the authenticated branch uses, with an empty `video_extra`. -/
theorem claim_C1_secure_fallback_chain (oracle : Oracle) (region vid : String)
    (mtok : Option String) (query : List (String × String)) :
    ((real_extract_recording oracle region vid mtok query).log =
      (if pyTruthyOpt (oracle (callApiUrl region vid "data/secure")
            (authHeaderOf (tokenOf mtok query)))
       then [⟨callApiUrl region vid "data/secure", authHeaderOf (tokenOf mtok query)⟩,
             ⟨callApiUrl region vid "", authHeaderOf (tokenOf mtok query)⟩]
       else [⟨callApiUrl region vid "data/secure", authHeaderOf (tokenOf mtok query)⟩,
             ⟨callApiUrl region vid "data", none⟩]))
    ∧ (pyTruthyOpt (oracle (callApiUrl region vid "data/secure")
          (authHeaderOf (tokenOf mtok query))) = false →
        (oracle (callApiUrl region vid "data") none = none →
          (real_extract_recording oracle region vid mtok query).result =
            .error .extractorError)
        ∧ (∀ d, oracle (callApiUrl region vid "data") none = some d →
            (real_extract_recording oracle region vid mtok query).result =
              processRecording vid d (some (.obj []))))
    ∧ (∀ v, oracle (callApiUrl region vid "data/secure")
          (authHeaderOf (tokenOf mtok query)) = some v →
        pyTruthy v = true →
        (real_extract_recording oracle region vid mtok query).result =
          processRecording vid v
            (oracle (callApiUrl region vid "") (authHeaderOf (tokenOf mtok query)))) := by
  refine ⟨?_, ?_, ?_⟩
  · cases hsec : oracle (callApiUrl region vid "data/secure")
        (authHeaderOf (tokenOf mtok query)) with
    | none =>
      cases hfb : oracle (callApiUrl region vid "data") none <;>
        simp [real_extract_recording, hsec, hfb, pyTruthyOpt]
    | some v =>
      by_cases htr : pyTruthy v
      · simp [real_extract_recording, hsec, htr, pyTruthyOpt]
      · cases hfb : oracle (callApiUrl region vid "data") none <;>
          simp [real_extract_recording, hsec, hfb, htr, pyTruthyOpt]
  · intro hfalsy
    cases hsec : oracle (callApiUrl region vid "data/secure")
        (authHeaderOf (tokenOf mtok query)) with
    | none =>
      refine ⟨fun hfb => ?_, fun d hfb => ?_⟩ <;>
        simp [real_extract_recording, hsec, hfb]
    | some v =>
      rw [hsec] at hfalsy
      simp only [pyTruthyOpt] at hfalsy
      refine ⟨fun hfb => ?_, fun d hfb => ?_⟩ <;>
        simp [real_extract_recording, hsec, hfb, hfalsy]
  · intro v hsec htr
    simp [real_extract_recording, hsec, htr]

/-- Transport responses for the C1 witness: the secure call fails, the
fallback succeeds. -/
def oracleC1 : Oracle := fun u _ =>
  if u = callApiUrl "eu" "v1" "data" then
    some (.obj [("subtitles", .arr []), ("chats", .arr [])])
  else none

/-- Witness for claim C1 at a concrete transport: the secure call yields no
data, and the successful fallback result is processed with empty extra
attributes. -/
theorem claim_C1_secure_fallback_chain_witness :
    (real_extract_recording oracleC1 "eu" "v1" none []).result =
      processRecording "v1" (.obj [("subtitles", .arr []), ("chats", .arr [])])
        (some (.obj [])) :=
  ((claim_C1_secure_fallback_chain oracleC1 "eu" "v1" none []).2.1
    (by decide)).2 _ (by decide)

/-- Transport responses for C3 (recording side): the secure call succeeds
with one stream, the extra-attributes call fails. -/
def oracleC3 : Oracle := fun u _ =>
  if u = callApiUrl "eu" "v1" "data/secure" then
    some (.obj [("extStreams", .arr [.obj [("streamUrl", .s "https://x/v.mp4")]]),
                ("subtitles", .arr []), ("chats", .arr [])])
  else none

/-- Claim C3 (refuted, code bug): a failed best-effort fetch does abort the
main flow.  In the single-recording resolver a failed extra-attributes call
leaves `video_extra = False`, and `video_extra.get('storageSize')` then
raises `AttributeError` as soon as a format exists; in the single-course
resolver a failed `courses/{id}` call leaves `course_info = False`, and
`course_info.get('displayName')` raises `AttributeError` unconditionally. -/
theorem claim_C3_best_effort_failure_aborts :
    (real_extract_recording oracleC3 "eu" "v1" none []).result =
      .error .attributeError
    ∧ singlecourse_real_extract (some ⟨[("a", "b")], some "https://act"⟩)
        (some "https://redir") none "c1" = .error .attributeError := by
  constructor
  · decide
  · rfl

/-- Transport responses for C4: the secure call succeeds but the response has
no `subtitles`/`chats` keys; the extra-attributes call succeeds with `{}`. -/
def oracleC4 : Oracle := fun u _ =>
  if u = callApiUrl "eu" "v1" "data/secure" then some (.obj [("name", .s "T")])
  else if u = callApiUrl "eu" "v1" "" then some (.obj [])
  else none

/-- Transport responses for C4's graceful half: the recording info carries
only empty `subtitles`/`chats` lists. -/
def oracleC4b : Oracle := fun u _ =>
  if u = callApiUrl "eu" "v1" "data/secure" then
    some (.obj [("subtitles", .arr []), ("chats", .arr [])])
  else if u = callApiUrl "eu" "v1" "" then some (.obj [])
  else none

/-- Claim C4 (refuted, code bug): absence of `duration`, `name`, `created`
and `extStreams` indeed degrades to `None`/empty output fields (second
conjunct), but absence of the `subtitles` (or `chats`) list makes
`for current_subs in video_info.get('subtitles')` iterate over `None`, which
raises `TypeError` and aborts the extraction (first conjunct) instead of
producing an empty subtitle mapping. -/
theorem claim_C4_missing_subtitles_key_aborts :
    (real_extract_recording oracleC4 "eu" "v1" none []).result =
      .error .typeError
    ∧ (real_extract_recording oracleC4b "eu" "v1" none []).result =
        .ok ⟨none, [], "v1", none, [], none⟩ := by
  constructor
  · decide
  · decide

/-- Transport for C8: responses are irrelevant, only the logged request
headers matter. -/
def oracleC8 : Oracle := fun _ _ => none

/-- Claim C8 (refuted, code bug): the regex-captured path token is sent
verbatim with precedence (third conjunct) and no header is sent when no
token exists (fourth conjunct), but a token taken from the `authToken` query
parameter is the `parse_qs` *list*, so the f-string renders
`Bearer ['tok']` rather than the string value `Bearer tok` (first and second
conjuncts). -/
theorem claim_C8_query_token_is_list :
    (real_extract_recording oracleC8 "eu" "rid" none
        [("a", "1"), ("authToken", "tok")]).log.head? =
      some ⟨callApiUrl "eu" "rid" "data/secure", some "Bearer ['tok']"⟩
    ∧ "Bearer ['tok']" ≠ "Bearer tok"
    ∧ (real_extract_recording oracleC8 "eu" "rid" (some "ptok")
        [("authToken", "qt")]).log.head? =
      some ⟨callApiUrl "eu" "rid" "data/secure", some "Bearer ptok"⟩
    ∧ (real_extract_recording oracleC8 "eu" "rid" none []).log.head? =
      some ⟨callApiUrl "eu" "rid" "data/secure", none⟩ := by
  refine ⟨by decide, by decide, by decide, by decide⟩

/-- The single-recording resolver threaded through a persistent request
journal: the only state the code touches across a call is what it appends to
the host's transport log. -/
def real_extract_recording_s (oracle : Oracle) (region vid : String)
    (mtok : Option String) (query : List (String × String))
    (st : List ApiReq) : ExtractRes × List ApiReq :=
  let r := real_extract_recording oracle region vid mtok query
  (r, st ++ r.log)

/-- The course-session resolver threaded through a persistent request
journal. -/
def class_real_extract_s (oracle : Oracle) (region rawToken : String)
    (data : SmuggledData) (st : List ApiReq) :
    Except PyErr PlaylistRes × List ApiReq :=
  let r := class_real_extract oracle region rawToken data
  (r.1, st ++ r.2)

/-- The all-courses resolver threaded through a persistent request
journal. -/
def acRun_s (oracle : Nat → Option JVal) (host : String) (fuel : Nat)
    (st : List AcReq) : AcOutcome × List AcReq :=
  let r := acRun oracle host fuel acInit
  (r, st ++ acLog r)

/-- Claim C9: each embedded resolver is a pure function of its URL-derived
inputs, its smuggled metadata and the transport responses: its outcome is
independent of any state accumulated by earlier resolutions (first, third
and fifth conjuncts quantify over arbitrary prior journals), and two calls
observing identical transport responses produce identical outputs (second,
fourth and sixth conjuncts). -/
theorem claim_C9_resolvers_pure :
    (∀ (oracle : Oracle) region vid mtok query s1 s2,
      (real_extract_recording_s oracle region vid mtok query s1).1 =
        (real_extract_recording_s oracle region vid mtok query s2).1)
    ∧ (∀ (o1 o2 : Oracle) region vid mtok query, (∀ u a, o1 u a = o2 u a) →
        real_extract_recording o1 region vid mtok query =
          real_extract_recording o2 region vid mtok query)
    ∧ (∀ (oracle : Oracle) region rawToken data s1 s2,
        (class_real_extract_s oracle region rawToken data s1).1 =
          (class_real_extract_s oracle region rawToken data s2).1)
    ∧ (∀ (o1 o2 : Oracle) region rawToken data, (∀ u a, o1 u a = o2 u a) →
        class_real_extract o1 region rawToken data =
          class_real_extract o2 region rawToken data)
    ∧ (∀ (oracle : Nat → Option JVal) host fuel s1 s2,
        (acRun_s oracle host fuel s1).1 = (acRun_s oracle host fuel s2).1)
    ∧ (∀ (o1 o2 : Nat → Option JVal) host fuel, (∀ off, o1 off = o2 off) →
        acRun o1 host fuel acInit = acRun o2 host fuel acInit) := by
  refine ⟨fun _ _ _ _ _ _ _ => rfl, ?_, fun _ _ _ _ _ _ => rfl, ?_,
          fun _ _ _ _ _ => rfl, ?_⟩
  · intro o1 o2 region vid mtok query h
    have : o1 = o2 := funext fun u => funext fun a => h u a
    rw [this]
  · intro o1 o2 region rawToken data h
    have : o1 = o2 := funext fun u => funext fun a => h u a
    rw [this]
  · intro o1 o2 host fuel h
    have : o1 = o2 := funext fun off => h off
    rw [this]

/-- Transport for the C9 witness. -/
def oracleC9 : Oracle := fun u _ =>
  if u = callApiUrl "eu" "v1" "data/secure" then
    some (.obj [("subtitles", .arr []), ("chats", .arr [])])
  else none

/-- Witness for claim C9 at concrete inputs: two single-recording
resolutions over distinct prior journals agree, and two oracles with
pointwise-equal responses yield the same resolution. -/
theorem claim_C9_resolvers_pure_witness :
    (real_extract_recording_s oracleC9 "eu" "v1" none [] [⟨"prior", none⟩]).1 =
      (real_extract_recording_s oracleC9 "eu" "v1" none [] []).1
    ∧ real_extract_recording oracleC9 "eu" "v1" none [] =
        real_extract_recording (fun u a => oracleC9 u a) "eu" "v1" none [] :=
  ⟨claim_C9_resolvers_pure.1 oracleC9 "eu" "v1" none [] [⟨"prior", none⟩] [],
   claim_C9_resolvers_pure.2.1 oracleC9 (fun u a => oracleC9 u a) "eu" "v1" none []
     (fun _ _ => rfl)⟩

/-- A string key applied after `results` hits a list, so the traversal
matches nothing. -/
lemma travStr_results_arr (kvs : List (String × JVal)) (l : List JVal)
    (h : jLookup kvs "results" = some (.arr l)) :
    traverse_obj_strs (.obj kvs) ["results", "0", "userId"] = none := by
  simp [traverse_obj_strs, List.foldl, pyGet, h]

/-- Loop invariant: once `user_id` is `None` and every logged request carried
a `None` video id, the rest of the run keeps both, provided every fetched
page stores its `results` as a JSON array. -/
lemma acRun_userId_none (oracle : Nat → Option JVal) (host : String)
    (hwf : ∀ off page, oracle off = some page →
      ∃ kvs l, page = JVal.obj kvs ∧ jLookup kvs "results" = some (.arr l)) :
    ∀ (fuel : Nat) (s : AcState), s.userId = none →
      (∀ r ∈ s.log, r.videoId = none) →
      ∀ r ∈ acLog (acRun oracle host fuel s), r.videoId = none := by
  intro fuel
  induction fuel with
  | zero =>
    intro s _ h2
    simpa [acRun, acLog] using h2
  | succ n ih =>
    intro s h1 h2
    have hreq : ∀ r ∈ s.log ++ [(⟨s.found, s.userId⟩ : AcReq)], r.videoId = none := by
      intro r hr
      rcases List.mem_append.mp hr with hm | hm
      · exact h2 r hm
      · rcases List.mem_singleton.mp hm with rfl
        exact h1
    simp only [acRun]
    cases hgt : pyGtNat s.count s.found with
    | error e => simpa [acLog] using h2
    | ok bb =>
      cases bb with
      | false => simpa [acLog] using h2
      | true =>
        cases hpage : oracle s.found with
        | none => simpa [acLog] using hreq
        | some page =>
          obtain ⟨kvs, l, rfl, hres⟩ := hwf _ _ hpage
          have huid : traverse_obj_strs (.obj kvs) ["results", "0", "userId"] = none :=
            travStr_results_arr _ _ hres
          have hidx : pyIndexStr (.obj kvs) "results" = .ok (some (.arr l)) := by
            simp [pyIndexStr, hres]
          dsimp only
          rw [hidx]
          dsimp only [pyLen]
          cases hpp : processPage host (.obj kvs) with
          | error e => simpa [acLog, huid] using hreq
          | ok es =>
            refine ih _ huid ?_
            simpa using hreq

/-- Claim C10: `traverse_obj(page, ('results', '0', 'userId'))` applies the
string key `'0'` to the `results` list and therefore yields `None` whenever
`results` is a JSON array (first conjunct); consequently every page request
the all-courses pagination loop issues carries a `None` video id (second
conjunct). -/
theorem claim_C10_userId_always_none :
    (∀ (kvs : List (String × JVal)) (l : List JVal),
      jLookup kvs "results" = some (.arr l) →
      traverse_obj_strs (.obj kvs) ["results", "0", "userId"] = none)
    ∧ (∀ (oracle : Nat → Option JVal) (host : String) (fuel : Nat),
        (∀ off page, oracle off = some page →
          ∃ kvs l, page = JVal.obj kvs ∧ jLookup kvs "results" = some (.arr l)) →
        (acLog (acRun oracle host fuel acInit)).all (fun r => r.videoId.isNone) = true) := by
  constructor
  · exact travStr_results_arr
  · intro oracle host fuel hwf
    rw [List.all_eq_true]
    intro r hr
    have := acRun_userId_none oracle host hwf fuel acInit rfl (by simp [acInit]) r hr
    simp [this]

/-- Pages for the C10 witness: `results` is an array whose element does carry
a `userId`. -/
def oracleC10 : Nat → Option JVal := fun _ =>
  some (.obj [("results", .arr [.obj [("userId", .s "u7")]]),
              ("paging", .obj [("count", .n 1)])])

/-- Witness for claim C10 at a concrete server: despite the page reporting
`userId = "u7"`, every request of the run carries a `None` video id. -/
theorem claim_C10_userId_always_none_witness :
    (acLog (acRun oracleC10 "h" 3 acInit)).all (fun r => r.videoId.isNone) = true :=
  claim_C10_userId_always_none.2 oracleC10 "h" 3
    (fun off page h => by
      injection h with h2
      exact ⟨_, _, h2.symm, rfl⟩)

/-- Number of results on the page served at a given offset (0 when the page
is missing or malformed; under `AcWF` it is the served array's length). -/
def pageLen (oracle : Nat → Option JVal) (off : Nat) : Nat :=
  match oracle off with
  | some (.obj kvs) =>
    match pyGet kvs "results" with
    | some (.arr l) => l.length
    | _ => 0
  | _ => 0

/-- Cumulative `courses_found` after `i` pages: offsets chain, each page is
requested at the previous accumulated count. -/
def cumFound (oracle : Nat → Option JVal) : Nat → Nat
  | 0 => 0
  | i + 1 => cumFound oracle i + pageLen oracle (cumFound oracle i)

/-- Reported `('paging', 'count')` total in force after `i` pages (the
initial sentinel `1` before any page). -/
def cntAt (oracle : Nat → Option JVal) : Nat → Int
  | 0 => 1
  | i + 1 =>
    match oracle (cumFound oracle i) with
    | some page =>
      match traverse_obj_strs page ["paging", "count"] with
      | some (.n c) => c
      | _ => 0
    | none => 0

/-- Well-formed server: every offset is served a page with an integer
`('paging', 'count')`, an array `results`, and entry processing that does not
crash. -/
def AcWF (oracle : Nat → Option JVal) (host : String) : Prop :=
  ∀ off, ∃ page, oracle off = some page ∧
    (∃ c : Int, traverse_obj_strs page ["paging", "count"] = some (.n c)) ∧
    (∃ kvs l, page = JVal.obj kvs ∧ jLookup kvs "results" = some (.arr l)) ∧
    (∃ es, processPage host page = .ok es)

/-- From an aligned state after `i` pages, if the loop condition holds for
`d` more pages and the stop condition holds after them, the run finishes
there with exactly `i + d` requests. -/
lemma acRun_reaches (oracle : Nat → Option JVal) (host : String)
    (hwf : AcWF oracle host) :
    ∀ (d i fuel : Nat) (s : AcState),
      s.found = cumFound oracle i →
      s.count = some (.n (cntAt oracle i)) →
      s.log.length = i →
      (∀ j, i ≤ j → j < i + d → (cumFound oracle j : Int) < cntAt oracle j) →
      cntAt oracle (i + d) ≤ (cumFound oracle (i + d) : Int) →
      d < fuel →
      ∃ s', acRun oracle host fuel s = .done s' ∧ s'.log.length = i + d ∧
        s'.found = cumFound oracle (i + d) := by
  intro d
  induction d with
  | zero =>
    intro i fuel s hf hc hl _hlt hstop hfuel
    cases fuel with
    | zero => omega
    | succ n =>
      refine ⟨s, ?_, by omega, by simp [hf]⟩
      simp only [acRun]
      rw [hc]
      dsimp only [pyGtNat]
      have hdec : decide ((s.found : Int) < cntAt oracle i) = false := by
        rw [decide_eq_false_iff_not]
        rw [hf]
        simp only [Nat.add_zero] at hstop
        omega
      rw [hdec]
  | succ d ih =>
    intro i fuel s hf hc hl hlt hstop hfuel
    cases fuel with
    | zero => omega
    | succ n =>
      obtain ⟨page, hpage, ⟨c, hcnt⟩, ⟨kvs, l, hobj, hres⟩, ⟨es, hpp⟩⟩ :=
        hwf (cumFound oracle i)
      subst hobj
      have hplen : pageLen oracle (cumFound oracle i) = l.length := by
        simp [pageLen, hpage, pyGet, hres]
      have hcnt1 : cntAt oracle (i + 1) = c := by
        simp [cntAt, hpage, hcnt]
      have hidx : pyIndexStr (.obj kvs) "results" = .ok (some (.arr l)) := by
        simp [pyIndexStr, hres]
      simp only [acRun]
      rw [hc]
      dsimp only [pyGtNat]
      have hdec : decide ((s.found : Int) < cntAt oracle i) = true := by
        rw [decide_eq_true_eq, hf]
        exact hlt i le_rfl (by omega)
      rw [hdec]
      dsimp only
      rw [hf, hpage]
      dsimp only
      rw [hidx]
      dsimp only [pyLen]
      rw [hpp]
      dsimp only
      have hrec := ih (i + 1) n
        { count := traverse_obj_strs (.obj kvs) ["paging", "count"]
          found := cumFound oracle i + l.length
          userId := traverse_obj_strs (.obj kvs) ["results", "0", "userId"]
          entries := s.entries ++ es
          log := s.log ++ [⟨cumFound oracle i, s.userId⟩] }
        (by simp only [cumFound, hplen])
        (by simp only [hcnt, hcnt1])
        (by simp [hl])
        (by intro j h1 h2; exact hlt j (by omega) (by omega))
        (by have : i + 1 + d = i + (d + 1) := by omega
            rw [this]; exact hstop)
        (by omega)
      obtain ⟨s', h1, h2, h3⟩ := hrec
      refine ⟨s', h1, by omega, ?_⟩
      have : i + 1 + d = i + (d + 1) := by omega
      rw [this] at h3
      exact h3

/-- A server page reporting total `c` with a single (unavailable) result. -/
def pageUnb (c : Int) : JVal :=
  .obj [("paging", .obj [("count", .n c)]), ("results", .arr [.null])]

/-- A server that always reports two more courses than delivered so far: the
pagination loop never stops. -/
def acOracleUnb : Nat → Option JVal := fun off =>
  some (pageUnb ((off : Int) + 2))

/-- Against `acOracleUnb`, every unit of fuel is spent on one more page
request and the loop is still running when the fuel runs out. -/
lemma acRun_unbounded :
    ∀ (fuel : Nat) (s : AcState), s.count = some (.n ((s.found : Int) + 1)) →
      ∃ s', acRun acOracleUnb "h" fuel s = .fuelOut s' ∧
        s'.log.length = s.log.length + fuel := by
  intro fuel
  induction fuel with
  | zero =>
    intro s _
    exact ⟨s, rfl, by omega⟩
  | succ n ih =>
    intro s hc
    simp only [acRun]
    rw [hc]
    dsimp only [pyGtNat]
    have hdec : decide ((s.found : Int) < (s.found : Int) + 1) = true := by
      rw [decide_eq_true_eq]; omega
    rw [hdec]
    dsimp only
    have hpage : acOracleUnb s.found = some (pageUnb ((s.found : Int) + 2)) := rfl
    rw [hpage]
    dsimp only
    have hidx : ∀ c, pyIndexStr (pageUnb c) "results" = .ok (some (.arr [.null])) :=
      fun c => rfl
    rw [hidx]
    dsimp only [pyLen]
    have hpp : ∀ c, processPage "h" (pageUnb c) = .ok [] := fun c => rfl
    rw [hpp]
    dsimp only
    have hcnt : ∀ c, traverse_obj_strs (pageUnb c) ["paging", "count"] = some (.n c) :=
      fun c => rfl
    obtain ⟨s', h1, h2⟩ := ih
      { count := traverse_obj_strs (pageUnb ((s.found : Int) + 2)) ["paging", "count"]
        found := s.found + 1
        userId := traverse_obj_strs (pageUnb ((s.found : Int) + 2)) ["results", "0", "userId"]
        entries := s.entries ++ []
        log := s.log ++ [⟨s.found, s.userId⟩] }
      (by rw [hcnt]
          have he : ((s.found : Int) + 2) = (((s.found + 1 : Nat) : Int) + 1) := by
            push_cast; omega
          rw [he])
    refine ⟨s', h1, ?_⟩
    rw [h2]
    simp only [List.length_append, List.length_cons, List.length_nil]
    omega

/-- A server page for the C2 counterexample: reported total 1, two results
delivered. -/
def oracleC2 : Nat → Option JVal := fun _ =>
  some (.obj [("paging", .obj [("count", .n 1)]), ("results", .arr [.null, .null])])

/-- Claim C2 as stated is false: against a server whose first page reports a
total of 1 but returns 2 results, the loop terminates (requesting exactly one
page) with a cumulative fetched count of 2, which never equals the reported
total 1 — termination happens on reaching *or exceeding* the total, not on
equality. -/
theorem claim_C2_counterexample :
    acRun oracleC2 "h" 5 acInit =
      .done ⟨some (.n 1), 2, none, [], [⟨0, none⟩]⟩
    ∧ (2 : Int) ≠ 1 :=
  ⟨by decide, by decide⟩

/-- Claim C2, amended: the loop terminates exactly when the accumulated
result count first reaches *or exceeds* the currently reported total (the
condition `number_of_courses > courses_found` re-checked before each
request), stopping after exactly that many page requests; and no independent
upper bound on iterations exists — a server that keeps reporting more
courses than delivered keeps the loop running for any amount of fuel, one
request per unit. -/
theorem claim_C2_amended_termination :
    (∀ (oracle : Nat → Option JVal) (host : String) (k fuel : Nat),
      AcWF oracle host →
      (∀ j, j < k → (cumFound oracle j : Int) < cntAt oracle j) →
      cntAt oracle k ≤ (cumFound oracle k : Int) →
      k < fuel →
      ∃ s, acRun oracle host fuel acInit = .done s ∧ s.log.length = k ∧
        s.found = cumFound oracle k)
    ∧ (∀ n : Nat, ∃ (oracle : Nat → Option JVal) (s : AcState),
        acRun oracle "h" n acInit = .fuelOut s ∧ s.log.length = n) := by
  constructor
  · intro oracle host k fuel hwf hlt hstop hfuel
    have h := acRun_reaches oracle host hwf k 0 fuel acInit rfl rfl rfl
      (fun j _ hj => hlt j (by omega)) (by simpa using hstop) hfuel
    simpa using h
  · intro n
    obtain ⟨s', h1, h2⟩ := acRun_unbounded n acInit rfl
    exact ⟨acOracleUnb, s', h1, by simpa [acInit] using h2⟩

/-- Witness for the amended claim C2 at the concrete counterexample server:
the loop makes exactly one request and stops with `found = cumFound 1 = 2`
even though the reported total is 1. -/
theorem claim_C2_amended_termination_witness :
    ∃ s, acRun oracleC2 "h" 3 acInit = .done s ∧ s.log.length = 1 ∧
      s.found = cumFound oracleC2 1 :=
  claim_C2_amended_termination.1 oracleC2 "h" 1 3
    (fun off => ⟨_, rfl, ⟨1, rfl⟩, ⟨_, [.null, .null], rfl, rfl⟩, ⟨[], rfl⟩⟩)
    (fun j hj => by
      have : j = 0 := by omega
      subst this
      decide)
    (by decide)
    (by omega)

/-- Bucket lookup distributes over a cons cell. -/
lemma subsAt_cons (k0 : PyKey) (vs : List SubEntry) (tl : SubMap) (k : PyKey) :
    subsAt ((k0, vs) :: tl) k = if k0 = k then vs else subsAt tl k := by
  by_cases h : k0 = k <;> simp [subsAt, List.find?_cons, h]

/-- `setdefault(key, []).append(v)` appends to exactly the bucket of the
key. -/
lemma subsAt_setdefaultAppend (m : SubMap) (k' k : PyKey) (v : SubEntry) :
    subsAt (setdefaultAppend m k' v) k =
      if k' = k then subsAt m k ++ [v] else subsAt m k := by
  induction m with
  | nil =>
    by_cases h : k' = k <;> simp [setdefaultAppend, subsAt_cons, subsAt, h]
  | cons hd tl ih =>
    obtain ⟨k0, vs⟩ := hd
    by_cases h0 : k0 = k'
    · subst h0
      by_cases h2 : k0 = k <;>
        simp [setdefaultAppend, subsAt_cons, h2]
    · by_cases h2 : k0 = k
      · subst h2
        have hne : k' ≠ k0 := fun hh => h0 hh.symm
        simp [setdefaultAppend, h0, subsAt_cons, hne]
      · simp [setdefaultAppend, h0, subsAt_cons, h2, ih]

/-- The bucket of a key in the built mapping is the keyed slice of the
insertion sequence, in order. -/
lemma subsAt_buildSubs (pairs : List (PyKey × SubEntry)) (k : PyKey) :
    subsAt (buildSubs pairs) k = (pairs.filter (fun p => p.1 = k)).map (·.2) := by
  suffices h : ∀ acc, subsAt (pairs.foldl (fun m p => setdefaultAppend m p.1 p.2) acc) k
      = subsAt acc k ++ (pairs.filter (fun p => p.1 = k)).map (·.2) by
    simpa [buildSubs, subsAt] using h []
  induction pairs with
  | nil => intro acc; simp
  | cons p ps ih =>
    intro acc
    obtain ⟨pk, pv⟩ := p
    simp only [List.foldl_cons]
    rw [ih (setdefaultAppend acc pk pv), subsAt_setdefaultAppend]
    by_cases h : pk = k <;> simp [h, List.filter_cons]

/-- Members of a successful `mapE` run come from members of the input. -/
lemma mapE_ok_mem {a b : Type} (f : a → Except PyErr b) :
    ∀ (l : List a) (out : List b), mapE f l = .ok out →
      ∀ y ∈ out, ∃ x ∈ l, f x = .ok y := by
  intro l
  induction l with
  | nil =>
    intro out h y hy
    simp only [mapE] at h
    injection h with h2
    subst h2
    simp at hy
  | cons x xs ih =>
    intro out h y hy
    simp only [mapE] at h
    cases hx : f x with
    | error e => rw [hx] at h; exact absurd h (by simp)
    | ok z =>
      rw [hx] at h
      cases hxs : mapE f xs with
      | error e => rw [hxs] at h; exact absurd h (by simp)
      | ok zs =>
        rw [hxs] at h
        injection h with h2
        subst h2
        rcases List.mem_cons.mp hy with rfl | hmem
        · exact ⟨x, List.mem_cons_self _ _, hx⟩
        · obtain ⟨x', hx', hfx'⟩ := ih zs hxs y hmem
          exact ⟨x', List.mem_cons_of_mem _ hx', hfx'⟩

/-- Inversion of a successful run of the single-recording processing
pipeline. -/
lemma processRecording_ok_inv (vid : String) (info : JVal) (extra : Option JVal)
    (m : MediaInfo) (h : processRecording vid info extra = .ok m) :
    ∃ kvs, info = .obj kvs ∧
      m.duration = int_or_none (pyGet kvs "duration") 1000 ∧
      m.title = pyGet kvs "name" ∧
      m.timestamp = parse_iso8601 (pyGet kvs "created") ∧
      m.id = vid ∧
      ∃ ss cs subPairs chatPairs,
        pyIterate (pyGet kvs "subtitles") = .ok ss ∧
        pyIterate (pyGet kvs "chats") = .ok cs ∧
        mapE subProc ss = .ok subPairs ∧
        mapE chatProc cs = .ok chatPairs ∧
        m.subtitles = buildSubs (subPairs ++ chatPairs) := by
  cases info with
  | obj kvs =>
    refine ⟨kvs, rfl, ?_⟩
    simp only [processRecording, pyGetAttr] at h
    cases hfm : mapE (filesizeStep extra) (formatsOf (.obj kvs)) with
    | error e => rw [hfm] at h; exact absurd h (by simp)
    | ok formats =>
      rw [hfm] at h
      dsimp only at h
      cases hss : pyIterate (pyGet kvs "subtitles") with
      | error e => rw [hss] at h; exact absurd h (by simp)
      | ok ss =>
        rw [hss] at h
        dsimp only at h
        cases hsp : mapE subProc ss with
        | error e => rw [hsp] at h; exact absurd h (by simp)
        | ok subPairs =>
          rw [hsp] at h
          dsimp only at h
          cases hcs : pyIterate (pyGet kvs "chats") with
          | error e => rw [hcs] at h; exact absurd h (by simp)
          | ok cs =>
            rw [hcs] at h
            dsimp only at h
            cases hcp : mapE chatProc cs with
            | error e => rw [hcp] at h; exact absurd h (by simp)
            | ok chatPairs =>
              rw [hcp] at h
              dsimp only at h
              injection h with h2
              subst h2
              exact ⟨rfl, rfl, rfl, rfl, ss, cs, subPairs, chatPairs,
                     rfl, rfl, hsp, hcp, rfl⟩
  | null => exact absurd h (by simp [processRecording, pyGetAttr])
  | b bb => exact absurd h (by simp [processRecording, pyGetAttr])
  | n v => exact absurd h (by simp [processRecording, pyGetAttr])
  | s str => exact absurd h (by simp [processRecording, pyGetAttr])
  | arr l => exact absurd h (by simp [processRecording, pyGetAttr])

/-- A successful subtitle-loop body keys the entry by exactly the `lang`
field it read. -/
lemma subProc_lang (e : JVal) (kk : PyKey) (ent : SubEntry)
    (h : subProc e = .ok (kk, ent)) : pyGetAttr e "lang" = .ok kk := by
  cases hl : pyGetAttr e "lang" with
  | error err => rw [subProc, hl] at h; exact absurd h (by simp)
  | ok lang =>
    rw [subProc, hl] at h
    dsimp only at h
    by_cases hh : pyHashable lang
    · rw [if_neg (by simpa using hh)] at h
      cases hlb : pyGetAttr e "label" with
      | error err => rw [hlb] at h; exact absurd h (by simp)
      | ok label =>
        rw [hlb] at h
        dsimp only at h
        cases hu : pyIndexStr e "url" with
        | error err => rw [hu] at h; exact absurd h (by simp)
        | ok u =>
          rw [hu] at h
          dsimp only at h
          injection h with h2
          injection h2 with h3 _
          rw [h3]
    · rw [if_pos (by simpa using hh)] at h
      exact absurd h (by simp)

/-- A successful chat-loop body always produces the fixed `live_chat` key. -/
lemma chatProc_key (e : JVal) (p : PyKey × SubEntry)
    (h : chatProc e = .ok p) : p.1 = some (JVal.s "live_chat") := by
  cases hu : pyIndexStr e "url" with
  | error err => rw [chatProc, hu] at h; exact absurd h (by simp)
  | ok u =>
    rw [chatProc, hu] at h
    dsimp only at h
    injection h with h2
    rw [← h2]

/-- Claim C5: when the recording info holds `subtitles` and `chats` arrays
and processing succeeds, every subtitle entry lands in the output mapping
under the verbatim value of its own `lang` field, every chat entry lands
under the fixed key `live_chat` (no field of the chat entry is consulted for
the key), and within each key the bucket lists the processed entries in
source order (subtitle-sourced entries before chat-sourced ones for the
`live_chat` key, matching the loop order). -/
theorem claim_C5_subtitle_keys (vid : String) (info : JVal) (extra : Option JVal)
    (ss cs : List JVal) (m : MediaInfo)
    (hs : pyGetAttr info "subtitles" = .ok (some (.arr ss)))
    (hc : pyGetAttr info "chats" = .ok (some (.arr cs)))
    (hm : processRecording vid info extra = .ok m) :
    ∃ subPairs chatPairs,
      mapE subProc ss = .ok subPairs ∧
      mapE chatProc cs = .ok chatPairs ∧
      (∀ e kk ent, subProc e = .ok (kk, ent) → pyGetAttr e "lang" = .ok kk) ∧
      (∀ p ∈ chatPairs, p.1 = some (JVal.s "live_chat")) ∧
      ∀ k, subsAt m.subtitles k =
        (subPairs.filter (fun p => p.1 = k)).map (·.2) ++
          (if k = some (JVal.s "live_chat") then chatPairs.map (·.2) else []) := by
  obtain ⟨kvs, rfl, _hdur, _htit, _hts, _hid, ss', cs', subPairs, chatPairs,
          hss', hcs', hsp, hcp, hsubs⟩ :=
    processRecording_ok_inv vid info extra m hm
  have hsv : pyGet kvs "subtitles" = some (.arr ss) := by
    have h2 := hs
    simp only [pyGetAttr] at h2
    injection h2
  have hcv : pyGet kvs "chats" = some (.arr cs) := by
    have h2 := hc
    simp only [pyGetAttr] at h2
    injection h2
  rw [hsv] at hss'
  rw [hcv] at hcs'
  simp only [pyIterate] at hss' hcs'
  injection hss' with hss2
  injection hcs' with hcs2
  subst hss2
  subst hcs2
  have hkeys : ∀ p ∈ chatPairs, p.1 = some (JVal.s "live_chat") := by
    intro p hp
    obtain ⟨e, _, he⟩ := mapE_ok_mem chatProc cs chatPairs hcp p hp
    exact chatProc_key e p he
  refine ⟨subPairs, chatPairs, hsp, hcp, subProc_lang, hkeys, ?_⟩
  intro k
  rw [hsubs, subsAt_buildSubs, List.filter_append, List.map_append]
  congr 1
  by_cases hk : k = some (JVal.s "live_chat")
  · subst hk
    rw [if_pos rfl]
    congr 1
    exact List.filter_eq_self.mpr (fun p hp => by simp [hkeys p hp])
  · rw [if_neg hk]
    have : chatPairs.filter (fun p => p.1 = k) = [] := by
      apply List.filter_eq_nil_iff.mpr
      intro p hp
      simp [hkeys p hp]
      intro hcontra
      exact hk hcontra.symm
    simp [this]

/-- Recording info for the C5 witness: two subtitle entries (one of them
under the language code `live_chat` itself) and one chat entry. -/
def infoC5 : JVal :=
  .obj [("subtitles", .arr
          [.obj [("lang", .s "en"), ("label", .s "E"), ("url", .s "https://u")],
           .obj [("lang", .s "live_chat"), ("label", .s "L"), ("url", .s "https://s")]]),
        ("chats", .arr [.obj [("url", .s "https://c")]])]

/-- Witness for claim C5 at a concrete response, applying the theorem to the
computed output record. -/
theorem claim_C5_subtitle_keys_witness :
    ∃ subPairs chatPairs,
      mapE subProc
          [.obj [("lang", .s "en"), ("label", .s "E"), ("url", .s "https://u")],
           .obj [("lang", .s "live_chat"), ("label", .s "L"), ("url", .s "https://s")]]
        = .ok subPairs ∧
      mapE chatProc [.obj [("url", .s "https://c")]] = .ok chatPairs ∧
      (∀ e kk ent, subProc e = .ok (kk, ent) → pyGetAttr e "lang" = .ok kk) ∧
      (∀ p ∈ chatPairs, p.1 = some (JVal.s "live_chat")) ∧
      ∀ k, subsAt (⟨none, [], "v1", none,
          [(some (.s "en"), [⟨some "E", some "https://u"⟩]),
           (some (.s "live_chat"), [⟨some "L", some "https://s"⟩, ⟨none, some "https://c"⟩])],
          none⟩ : MediaInfo).subtitles k =
        (subPairs.filter (fun p => p.1 = k)).map (·.2) ++
          (if k = some (JVal.s "live_chat") then chatPairs.map (·.2) else []) :=
  claim_C5_subtitle_keys "v1" infoC5 (some (.obj [])) _ _ _
    (by decide) (by decide) (by decide)

/-- Python floor division by 1000 casts back to the exact rational quotient
precisely when the dividend is a multiple of 1000. -/
lemma fdiv_cast_eq_div_iff (a : Int) :
    ((Int.fdiv a 1000 : Int) : ℚ) = (a : ℚ) / 1000 ↔ (1000 : Int) ∣ a := by
  rw [Int.fdiv_eq_ediv a (by norm_num)]
  constructor
  · intro h
    have h2 : ((a / 1000 : Int) : ℚ) * 1000 = (a : ℚ) := by
      rw [h]; field_simp
    have h3 : ((a / 1000 * 1000 : Int) : ℚ) = ((a : Int) : ℚ) := by
      push_cast
      linarith
    have h4 : a / 1000 * 1000 = a := Int.cast_injective h3
    exact ⟨a / 1000, by linarith⟩
  · rintro ⟨k, rfl⟩
    rw [Int.mul_ediv_cancel_left k (by norm_num)]
    push_cast
    field_simp

/-- A successful course-session loop body divides the raw millisecond
duration by 1000 with Python true division (exact in the rational model). -/
lemma classItemProc_ok_duration (oracle : Oracle) (endpoint auth : String)
    (i : JVal) (e : ClassEntry) (ms : Int)
    (hd : pyIndexStr i "duration" = .ok (some (.n ms)))
    (h : (classItemProc oracle endpoint auth i).1 = .ok e) :
    e.duration = (ms : ℚ) / 1000 := by
  cases hid : pyIndexStr i "id" with
  | error err => simp [classItemProc, hid] at h
  | ok iid =>
    simp only [classItemProc, hid] at h
    cases horc : oracle (endpoint ++ "/" ++ pyStrJ (iid.getD .null) ++ "/url") (some auth) with
    | none => rw [horc] at h; exact absurd h (by simp)
    | some resp =>
      rw [horc] at h
      dsimp only at h
      cases h1 : pyIndexStr resp "url" with
      | error err => rw [h1] at h; exact absurd h (by simp)
      | ok curUrl =>
        rw [h1] at h
        dsimp only at h
        cases h2 : pyIndexStr i "publicLinkAllowed" with
        | error err => rw [h2] at h; exact absurd h (by simp)
        | ok pla =>
          rw [h2] at h
          dsimp only at h
          cases h3 : pyIndexStr i "playbackCount" with
          | error err => rw [h3] at h; exact absurd h (by simp)
          | ok vc =>
            rw [h3] at h
            dsimp only at h
            rw [hd] at h
            dsimp only at h
            injection h with h4
            rw [← h4]

/-- Transport for the C6 counterexample: a recording of 1500 ms. -/
def oracleC6 : Oracle := fun u _ =>
  if u = callApiUrl "eu" "v1" "data/secure" then
    some (.obj [("duration", .n 1500), ("subtitles", .arr []), ("chats", .arr [])])
  else if u = callApiUrl "eu" "v1" "" then some (.obj [])
  else none

/-- Claim C6 as stated is false for the single-recording resolver: a source
duration of 1500 ms is emitted as 1 second (`int_or_none(1500, 1000)` floor
divides), and `1500 / 1000 = 3/2 ≠ 1`, so the round-trip
`ms / 1000 == seconds` fails whenever 1000 does not divide the source
value. -/
theorem claim_C6_counterexample :
    (match (real_extract_recording oracleC6 "eu" "v1" none []).result with
     | .ok m => m.duration
     | _ => none) = some 1
    ∧ ¬ (((1 : Int) : ℚ) = (1500 : ℚ) / 1000) :=
  ⟨by decide, by norm_num⟩

/-- Claim C6, amended: the single-recording resolver emits
`⌊ms / 1000⌋` seconds (Python floor division, exact precisely when
`1000 ∣ ms`), while the course-session resolver's per-entry duration is the
exact true-division quotient `ms / 1000`. -/
theorem claim_C6_amended_duration_units :
    (∀ (vid : String) (info : JVal) (extra : Option JVal) (m : MediaInfo) (ms : Int),
      pyGetAttr info "duration" = .ok (some (.n ms)) →
      processRecording vid info extra = .ok m →
      m.duration = some (Int.fdiv ms 1000))
    ∧ (∀ (oracle : Oracle) (endpoint auth : String) (i : JVal) (e : ClassEntry) (ms : Int),
        pyIndexStr i "duration" = .ok (some (.n ms)) →
        (classItemProc oracle endpoint auth i).1 = .ok e →
        e.duration = (ms : ℚ) / 1000)
    ∧ (∀ ms : Int, ((Int.fdiv ms 1000 : Int) : ℚ) = (ms : ℚ) / 1000 ↔ (1000 : Int) ∣ ms) := by
  refine ⟨?_, classItemProc_ok_duration, fdiv_cast_eq_div_iff⟩
  intro vid info extra m ms hd hm
  obtain ⟨kvs, rfl, hdur, _⟩ := processRecording_ok_inv vid info extra m hm
  have hv : pyGet kvs "duration" = some (.n ms) := by
    have h2 := hd
    simp only [pyGetAttr] at h2
    injection h2
  rw [hdur, hv]
  simp [int_or_none, pyInt]

/-- Recording info for the C6 witness. -/
def infoC6 : JVal :=
  .obj [("duration", .n 1500), ("subtitles", .arr []), ("chats", .arr [])]

/-- Transport for the C6 witness's course-session item. -/
def oracleC6w : Oracle := fun u _ =>
  if u = "ep/r1/url" then some (.obj [("url", .s "https://l")]) else none

/-- Course-session item for the C6 witness. -/
def itemC6 : JVal :=
  .obj [("id", .s "r1"), ("publicLinkAllowed", .b true),
        ("playbackCount", .n 3), ("duration", .n 1500)]

/-- Witness for the amended claim C6 at 1500 ms: floor seconds in the
single-recording output, the exact rational in the course-session entry, and
the exactness criterion instantiated. -/
theorem claim_C6_amended_duration_units_witness :
    (⟨some 1, [], "v1", none, [], none⟩ : MediaInfo).duration =
      some (Int.fdiv 1500 1000)
    ∧ (⟨some (.s "r1"), some (.s "https://l"), some (.n 3),
        ((1500 : Int) : ℚ) / 1000, "public"⟩ : ClassEntry).duration =
        ((1500 : Int) : ℚ) / 1000
    ∧ (((Int.fdiv 1500 1000 : Int) : ℚ) = ((1500 : Int) : ℚ) / 1000 ↔
        (1000 : Int) ∣ 1500) :=
  ⟨claim_C6_amended_duration_units.1 "v1" infoC6 (some (.obj []))
      ⟨some 1, [], "v1", none, [], none⟩ 1500 (by decide) (by decide),
   claim_C6_amended_duration_units.2.1 oracleC6w "ep" "B" itemC6
      ⟨some (.s "r1"), some (.s "https://l"), some (.n 3),
       ((1500 : Int) : ℚ) / 1000, "public"⟩ 1500 (by decide) (by rfl),
   claim_C6_amended_duration_units.2.2 1500⟩

set_option maxRecDepth 10000 in
/-- Six bits survive the value/bit round trip. -/
lemma sext6_bitsVal : ∀ a b c d e f : Bool,
    sext6 (bitsVal [a, b, c, d, e, f]) = [a, b, c, d, e, f] := by decide

set_option maxRecDepth 40000 in
/-- A byte survives the bit/value round trip. -/
lemma bitsVal_byteBits : ∀ x : Fin 256, bitsVal (byteBits x.val) = x.val := by decide

set_option maxRecDepth 40000 in
/-- A base64 digit is decoded back from its alphabet character. -/
lemma charVal_alphaChar : ∀ v : Fin 64, charVal (alphaChar v.val) = some v.val := by decide

set_option maxRecDepth 40000 in
/-- Alphabet characters of valid digits belong to the alphabet. -/
lemma alphaChar_mem : ∀ v : Fin 64, alphaChar v.val ∈ b64chars := by decide

/-- Neither padding nor the token separator is an alphabet character. -/
lemma pad_dot_not_in_alphabet : '=' ∉ b64chars ∧ '.' ∉ b64chars := by decide

/-- Accumulator bound for the bit-string value fold. -/
lemma bitsVal_foldl_lt : ∀ (l : List Bool) (acc : Nat),
    l.foldl (fun a bb => 2 * a + cond bb 1 0) acc < (acc + 1) * 2 ^ l.length := by
  intro l
  induction l with
  | nil => intro acc; simp
  | cons b l ih =>
    intro acc
    have h := ih (2 * acc + cond b 1 0)
    have hb : cond b 1 0 ≤ 1 := by cases b <;> simp
    calc (b :: l).foldl (fun a bb => 2 * a + cond bb 1 0) acc
        = l.foldl (fun a bb => 2 * a + cond bb 1 0) (2 * acc + cond b 1 0) := by
          simp [List.foldl_cons]
      _ < (2 * acc + cond b 1 0 + 1) * 2 ^ l.length := h
      _ ≤ (acc + 1) * 2 ^ (b :: l).length := by
          simp only [List.length_cons, pow_succ]
          have h2 : 2 * acc + cond b 1 0 + 1 ≤ (acc + 1) * 2 := by omega
          calc (2 * acc + cond b 1 0 + 1) * 2 ^ l.length
              ≤ (acc + 1) * 2 * 2 ^ l.length := Nat.mul_le_mul_right _ h2
            _ = (acc + 1) * (2 ^ l.length * 2) := by ring

/-- The value of a bit string is bounded by the corresponding power of
two. -/
lemma bitsVal_lt (l : List Bool) : bitsVal l < 2 ^ l.length := by
  simpa [bitsVal] using bitsVal_foldl_lt l 0

/-- Specification of six-bit chunking on inputs of fitting length: decoding
each chunk's value restores the bit string, the chunk count is the length
quotient, and every chunk has six bits. -/
lemma chunk6_spec : ∀ bits : List Bool, bits.length % 6 = 0 →
    ((chunk6 bits).map (fun c => sext6 (bitsVal c))).flatten = bits
    ∧ (chunk6 bits).length = bits.length / 6
    ∧ ∀ c ∈ chunk6 bits, c.length = 6 := by
  intro bits
  induction bits using chunk6.induct with
  | case1 a b c d e f rest ih =>
    intro h
    have h6 : rest.length % 6 = 0 := by
      simp only [List.length_cons] at h
      omega
    obtain ⟨ih1, ih2, ih3⟩ := ih h6
    refine ⟨?_, ?_, ?_⟩
    · simp only [chunk6, List.map_cons, List.flatten_cons, sext6_bitsVal, ih1,
                 List.cons_append, List.nil_append]
    · simp only [chunk6, List.length_cons, ih2]
      omega
    · intro ch hch
      simp only [chunk6, List.mem_cons] at hch
      rcases hch with rfl | hch
      · rfl
      · exact ih3 ch hch
  | case2 =>
    intro _
    exact ⟨rfl, rfl, fun c hc => absurd hc (by simp [chunk6])⟩
  | case3 l hne hnil =>
    intro h
    exfalso
    rcases l with _ | ⟨a, _ | ⟨b, _ | ⟨c, _ | ⟨d, _ | ⟨e, _ | ⟨f, rest⟩⟩⟩⟩⟩⟩
    · exact hnil rfl
    · simp at h
    · simp at h
    · simp at h
    · simp at h
    · simp at h
    · exact hne a b c d e f rest rfl

/-- Length of the bit string of a byte string. -/
lemma bytesToBits_length (B : List Nat) : (bytesToBits B).length = 8 * B.length := by
  induction B with
  | nil => rfl
  | cons x xs ih =>
    simp only [bytesToBits, List.map_cons, List.flatten_cons, List.length_append,
               List.length_cons] at ih ⊢
    simp only [byteBits, List.length_cons, List.length_nil]
    omega

/-- Re-chunking the bit string of a byte string by eight restores the
bytes. -/
lemma chunk8_bytesToBits : ∀ B : List Nat, (∀ x ∈ B, x < 256) →
    (chunk8 (bytesToBits B)).map bitsVal = B := by
  intro B
  induction B with
  | nil => intro _; rfl
  | cons x xs ih =>
    intro h
    have hx : x < 256 := h x (List.mem_cons_self _ _)
    have hxs : ∀ y ∈ xs, y < 256 := fun y hy => h y (List.mem_cons_of_mem _ hy)
    have hsplit : bytesToBits (x :: xs) = byteBits x ++ bytesToBits xs := by
      simp [bytesToBits]
    rw [hsplit]
    simp only [byteBits, List.cons_append, List.nil_append, chunk8, List.map_cons]
    have hnil : ([] : List Bool).append (bytesToBits xs) = bytesToBits xs := rfl
    rw [hnil, ih hxs]
    congr 1
    simpa [byteBits] using bitsVal_byteBits ⟨x, hx⟩

/-- Decoding the alphabet characters of valid digits restores the digits. -/
lemma filterMap_charVal (code : List Nat) (h : ∀ v ∈ code, v < 64) :
    (code.map alphaChar).filterMap charVal = code := by
  induction code with
  | nil => rfl
  | cons v vs ih =>
    have hv : v < 64 := h v (List.mem_cons_self _ _)
    have h2 := charVal_alphaChar ⟨v, hv⟩
    simp only [List.map_cons, List.filterMap_cons, h2]
    rw [ih (fun y hy => h y (List.mem_cons_of_mem _ hy))]

/-- `takeWhile (≠ '=')` stops exactly at the first padding character. -/
lemma takeWhile_append_pad (l r : List Char) (h : ∀ c ∈ l, c ≠ '=') :
    (l ++ '=' :: r).takeWhile (· ≠ '=') = l := by
  induction l with
  | nil => simp [List.takeWhile]
  | cons c cs ih =>
    have hc : c ≠ '=' := h c (List.mem_cons_self _ _)
    simp only [List.cons_append]
    rw [List.takeWhile_cons]
    have hcond : (decide (c ≠ '=')) = true := by simp [hc]
    rw [hcond, if_pos rfl, ih (fun y hy => h y (List.mem_cons_of_mem _ hy))]

/-- Python `split` peels off the leading separator-free piece. -/
lemma pySplit_append (l r : List Char) (h : '.' ∉ l) :
    pySplit '.' (l ++ '.' :: r) = l :: pySplit '.' r := by
  induction l with
  | nil => simp [pySplit]
  | cons c cs ih =>
    have hc : ¬ (c = '.') := fun hh => h (hh ▸ List.mem_cons_self _ _)
    have hcs : '.' ∉ cs := fun hh => h (List.mem_cons_of_mem _ hh)
    simp only [List.cons_append, pySplit, if_neg hc]
    have ih2 : pySplit '.' (cs.append ('.' :: r)) = cs :: pySplit '.' r := ih hcs
    rw [ih2]

/-- Core decode/encode round trip: the alphabet characters of the six-bit
chunks of a zero-padded bit string, followed by enough `=` padding, decode
back to the eight-bit chunks of the original bit string. -/
lemma b64decodePy_chunks (bits0 : List Bool) (z : Nat) (hz : z < 6)
    (hmod : (bits0.length + z) % 6 = 0) (hrem : bits0.length % 8 = 0)
    (mm : Nat) (hmm : 3 ≤ mm) :
    b64decodePy (((chunk6 (bits0 ++ List.replicate z false)).map
        (fun l => alphaChar (bitsVal l))) ++ List.replicate mm '=') =
      some ((chunk8 bits0).map bitsVal) := by
  have hplen : (bits0 ++ List.replicate z false).length = bits0.length + z := by
    simp
  obtain ⟨hflat, hclen, hcall⟩ := chunk6_spec (bits0 ++ List.replicate z false)
    (by rw [hplen]; exact hmod)
  have hmapmap : (chunk6 (bits0 ++ List.replicate z false)).map
      (fun l => alphaChar (bitsVal l)) =
      ((chunk6 (bits0 ++ List.replicate z false)).map bitsVal).map alphaChar := by
    rw [List.map_map]
    rfl
  have hcode64 : ∀ v ∈ (chunk6 (bits0 ++ List.replicate z false)).map bitsVal,
      v < 64 := by
    intro v hv
    obtain ⟨c, hc, rfl⟩ := List.mem_map.mp hv
    have hb := bitsVal_lt c
    rw [hcall c hc] at hb
    exact lt_of_lt_of_le hb (by norm_num)
  have hchars : ∀ ch ∈ ((chunk6 (bits0 ++ List.replicate z false)).map bitsVal).map
      alphaChar, ch ≠ '=' := by
    intro ch hch
    obtain ⟨v, hv, rfl⟩ := List.mem_map.mp hch
    have hmem := alphaChar_mem ⟨v, hcode64 v hv⟩
    intro he
    rw [he] at hmem
    exact pad_dot_not_in_alphabet.1 hmem
  obtain ⟨m, rfl⟩ : ∃ m, mm = m + 1 := ⟨mm - 1, by omega⟩
  rw [hmapmap, List.replicate_succ]
  simp only [b64decodePy]
  rw [takeWhile_append_pad _ _ hchars]
  rw [List.drop_left]
  have hall : (('=' :: List.replicate m '=').all (fun c => c = '=')) = true := by
    simp [List.all_eq_true, List.mem_replicate]
  rw [filterMap_charVal _ hcode64]
  rw [List.length_map, hclen, hplen]
  have hbits : ((((chunk6 (bits0 ++ List.replicate z false)).map bitsVal).map
      sext6).flatten) = bits0 ++ List.replicate z false := by
    rw [List.map_map]
    exact hflat
  rw [hbits]
  have hblen : (bits0 ++ List.replicate z false).length = bits0.length + z := hplen
  rw [hblen]
  have htake : 8 * ((bits0.length + z) / 8) = bits0.length := by omega
  rw [htake, List.take_left]
  have hn1 : ¬ ((bits0.length + z) / 6 % 4 = 1) := by omega
  have hsuf : ('=' :: List.replicate m '=').length = m + 1 := by simp
  rw [if_neg (by simp [hall])]
  rw [if_neg hn1]
  rw [if_neg (by
    rw [hsuf]
    intro hcon
    omega)]

/-- Decoding the canonical base64 characters of a byte string followed by at
least three `=` restores the bytes. -/
lemma b64decodePy_encode (B : List Nat) (hB : ∀ x ∈ B, x < 256)
    (mm : Nat) (hmm : 3 ≤ mm) :
    b64decodePy (b64encodeChars B ++ List.replicate mm '=') = some B := by
  have hlen0 := bytesToBits_length B
  have h := b64decodePy_chunks (bytesToBits B)
    ((6 - (bytesToBits B).length % 6) % 6)
    (Nat.mod_lt _ (by norm_num))
    (by omega)
    (by rw [hlen0]; omega)
    mm hmm
  rw [chunk8_bytesToBits B hB] at h
  exact h

/-- Every character of the canonical base64 encoding is an alphabet
character. -/
lemma b64encodeChars_mem (B : List Nat) :
    ∀ c ∈ b64encodeChars B, c ∈ b64chars := by
  intro ch hch
  have hlen0 := bytesToBits_length B
  obtain ⟨_, _, hcall⟩ := chunk6_spec
    (bytesToBits B ++ List.replicate ((6 - (bytesToBits B).length % 6) % 6) false)
    (by simp only [List.length_append, List.length_replicate]; omega)
  obtain ⟨c, hc, rfl⟩ := List.mem_map.mp hch
  have hb := bitsVal_lt c
  rw [hcall c hc] at hb
  exact alphaChar_mem ⟨bitsVal c, lt_of_lt_of_le hb (by norm_num)⟩

/-- Claim C7: the launch-token/course-session token pipeline —
`base64.b64decode(token.split('.')[1] + '===')` — recovers the embedded
payload bytes from any token whose middle dot-separated segment is the
canonical base64 encoding of the payload with any number `k ≤ padding` of
trailing `=` characters missing (0, 1 or 2): the appended `===` normalizes
the padding and the decode succeeds. -/
theorem claim_C7_token_padding_decode (B : List Nat) (hB : ∀ x ∈ B, x < 256)
    (s0 s2 : List Char) (h0 : '.' ∉ s0) (k : Nat) (_hk : k ≤ b64padCount B) :
    tokenPayload (s0 ++ '.' ::
      ((b64encodeChars B ++ List.replicate (b64padCount B - k) '=') ++ '.' :: s2)) =
      some B := by
  have hmid : '.' ∉ b64encodeChars B ++ List.replicate (b64padCount B - k) '=' := by
    intro hmem
    rcases List.mem_append.mp hmem with hm | hm
    · exact pad_dot_not_in_alphabet.2 (b64encodeChars_mem B _ hm)
    · rw [List.mem_replicate] at hm
      exact absurd hm.2 (by decide)
  simp only [tokenPayload]
  rw [pySplit_append _ _ h0, pySplit_append _ _ hmid]
  simp only [List.get?]
  have hjoin : (b64encodeChars B ++ List.replicate (b64padCount B - k) '=') ++
      ['=', '=', '='] = b64encodeChars B ++ List.replicate (b64padCount B - k + 3) '=' := by
    rw [List.append_assoc, List.replicate_add]
    rfl
  rw [hjoin]
  exact b64decodePy_encode B hB _ (by omega)

/-- Witness for claim C7: the payload `{"a":1}` (bytes 123,34,97,34,58,49,125)
with 2 of its 2 padding characters missing yields the concrete token
`xx.eyJhIjoxfQ.yy`, whose pipeline decode returns exactly the payload bytes,
which parse as the JSON object `{"a": 1}`. -/
theorem claim_C7_token_padding_decode_witness :
    tokenPayload ("xx".data ++ '.' ::
      ((b64encodeChars [123, 34, 97, 34, 58, 49, 125] ++
        List.replicate (b64padCount [123, 34, 97, 34, 58, 49, 125] - 2) '=') ++
        '.' :: "yy".data)) = some [123, 34, 97, 34, 58, 49, 125]
    ∧ ("xx".data ++ '.' ::
      ((b64encodeChars [123, 34, 97, 34, 58, 49, 125] ++
        List.replicate (b64padCount [123, 34, 97, 34, 58, 49, 125] - 2) '=') ++
        '.' :: "yy".data)) = "xx.eyJhIjoxfQ.yy".data
    ∧ jsonParse [123, 34, 97, 34, 58, 49, 125] = some (.obj [("a", .n 1)]) :=
  ⟨claim_C7_token_padding_decode _ (by decide) _ _ (by decide) 2 (by decide),
   by decide, by decide⟩
